import Mathlib

/-!
Verification development for the weekly-report Telegram bot
(conversation state machine + cache/retry data-access layer).

The JavaScript sources are shallowly embedded as executable Lean
definitions: timestamps are naturals (milliseconds), JS numbers that
carry fractional values are rationals, JS `Map`s are association lists,
side effects (messages sent to the user, state transitions) are explicit
event lists, and fallible calls return `Option`/`Except`.
-/

set_option autoImplicit false

namespace Challange10k

/-- Decidable substring test on character lists: JS
`string.includes(pattern)`; `true` iff `pat` occurs contiguously in `s`. -/
def containsChars (s pat : List Char) : Bool :=
  match s with
  | [] => pat.isEmpty
  | _ :: t => pat.isPrefixOf s || containsChars t pat

/-- JS `s.includes(pat)` on strings. -/
def strContains (s pat : String) : Bool :=
  containsChars s.toList pat.toList

/-- JS `s.startsWith(pre)` on strings (kernel-computable). -/
def jsStartsWith (s pre : String) : Bool :=
  pre.toList.isPrefixOf s.toList

/-- Splitting core for JS `s.split(sep)` with a one-character separator:
accumulates the current field (reversed) and cuts at each separator. -/
def splitCharAux (sep : Char) : List Char → List Char → List (List Char)
  | [], acc => [acc.reverse]
  | c :: rest, acc =>
    if c == sep then acc.reverse :: splitCharAux sep rest []
    else splitCharAux sep rest (c :: acc)

/-- JS `s.split(sep)` for a one-character separator string
(kernel-computable; JS split never returns an empty list). -/
def jsSplit (s : String) (sep : Char) : List String :=
  (splitCharAux sep s.toList []).map (fun l => ⟨l⟩)

/-- JS `s.trim()` (kernel-computable; trims whitespace on both ends). -/
def jsTrim (s : String) : String :=
  ⟨((s.toList.dropWhile Char.isWhitespace).reverse.dropWhile
      Char.isWhitespace).reverse⟩

/-- One character of JS `toLowerCase()` on the alphabets this program
compares: ASCII `A`-`Z` maps down by `0x20`; in the basic Cyrillic
block, `U+0400`-`U+040F` (`Ѐ`-`Џ`, including `Ё`) maps down by `0x50`
and `U+0410`-`U+042F` (`А`-`Я`) maps down by `0x20`, as in the Unicode
simple lowercase mapping; every other character is unchanged
(kernel-computable). -/
def jsCharToLower (c : Char) : Char :=
  if 0x41 ≤ c.toNat ∧ c.toNat ≤ 0x5A then Char.ofNat (c.toNat + 0x20)
  else if 0x400 ≤ c.toNat ∧ c.toNat ≤ 0x40F then Char.ofNat (c.toNat + 0x50)
  else if 0x410 ≤ c.toNat ∧ c.toNat ≤ 0x42F then Char.ofNat (c.toNat + 0x20)
  else c

/-- JS `s.toLowerCase()` (kernel-computable; Unicode-aware on the
ASCII and basic-Cyrillic letters this program compares, so the
case-insensitive Cyrillic checks below behave as in JS). -/
def jsToLower (s : String) : String :=
  ⟨s.toList.map jsCharToLower⟩

/-! ## Cache (services/sheets/cacheManager.js, class `CacheManager`)

The cache is a `Map` from string keys to `{value, expires}` records.
JS `Map` semantics: `set` overwrites the entry for an existing key in
place, `get` finds the unique entry for a key, `delete` removes it.
We model the map as an association list without duplicate keys
(the operations below preserve that shape) and pass `Date.now()`
explicitly as a `now : Nat` argument (milliseconds).
-/

/-- One stored cache record: the value together with its absolute expiry
timestamp (`expires`, in ms), as built by `CacheManager.set`. -/
structure CacheItem (V : Type) where
  value : V
  expires : Nat
  deriving Repr, DecidableEq

/-- The cache store: JS `this.cache`, a `Map` from keys to items. -/
abbrev Cache (V : Type) := List (String × CacheItem V)

namespace CacheManager

variable {V : Type}

/-- Lookup of `this.cache.get(key)`. -/
def find (c : Cache V) (key : String) : Option (CacheItem V) :=
  (c.find? (fun p => p.1 == key)).map (·.2)

/-- `CacheManager.delete(key)`: `this.cache.delete(key)` removes the
entry for `key` (the map holds at most one). -/
def delete (c : Cache V) (key : String) : Cache V :=
  c.filter (fun p => ¬ p.1 == key)

/-- `CacheManager.set(key, value, ttlSeconds)` executed at time `now`
(ms): stores `{value, expires: now + ttlSeconds*1000}` under `key`,
overwriting any existing entry for the same key. -/
def set (c : Cache V) (key : String) (value : V) (ttlSeconds : Nat) (now : Nat) :
    Cache V :=
  let item : CacheItem V := ⟨value, now + ttlSeconds * 1000⟩
  if c.any (fun p => p.1 == key) then
    c.map (fun p => if p.1 == key then (key, item) else p)
  else
    c ++ [(key, item)]

/-- `CacheManager.get(key)` executed at time `now` (ms): returns the
updated cache together with the result — `none` when the key is absent,
and when `now > expires` the entry is deleted and `none` returned;
otherwise the stored value. -/
def get (c : Cache V) (key : String) (now : Nat) : Cache V × Option V :=
  match find c key with
  | none => (c, none)
  | some item =>
    if now > item.expires then (delete c key, none)
    else (c, some item.value)

/-- `CacheManager.deleteByPattern(pattern)`: removes every entry whose
key contains `pattern` as a substring (JS `key.includes(pattern)`). -/
def deleteByPattern (c : Cache V) (pattern : String) : Cache V :=
  c.filter (fun p => ¬ strContains p.1 pattern)

end CacheManager

section CacheLemmas

variable {V : Type}

theorem find?_overwrite (c : List (String × CacheItem V)) (k : String)
    (x : CacheItem V) (h : c.any (fun p => p.1 == k) = true) :
    (c.map (fun p => if p.1 == k then (k, x) else p)).find?
        (fun p => p.1 == k) = some (k, x) := by
  induction c with
  | nil => simp at h
  | cons p t ih =>
    by_cases hp : p.1 == k
    · simp [List.find?, hp]
    · simp only [List.any_cons, Bool.or_eq_true] at h
      rcases h with h | h
      · exact absurd h hp
      · simp only [List.map_cons, hp, if_false, List.find?_cons_of_neg,
          Bool.not_eq_true]
        rw [List.find?_cons_of_neg _ (by simpa using hp)]
        exact ih h

theorem find?_append_single (c : List (String × CacheItem V)) (k : String)
    (x : CacheItem V) (h : c.any (fun p => p.1 == k) = false) :
    (c ++ [(k, x)]).find? (fun p => p.1 == k) = some (k, x) := by
  induction c with
  | nil => simp [List.find?]
  | cons p t ih =>
    simp only [List.any_cons, Bool.or_eq_false_iff] at h
    simp only [List.cons_append]
    rw [List.find?_cons_of_neg _ (by simp [h.1])]
    exact ih h.2

theorem cache_find_set_self (c : Cache V) (k : String) (v : V) (ttl now : Nat) :
    CacheManager.find (CacheManager.set c k v ttl now) k =
      some ⟨v, now + ttl * 1000⟩ := by
  unfold CacheManager.set CacheManager.find
  by_cases h : c.any (fun p => p.1 == k)
  · simp only [h, if_true, find?_overwrite c k _ h, Option.map_some]
    rfl
  · rw [if_neg (by simp [h]),
      find?_append_single c k _ (Bool.not_eq_true _ ▸ h)]
    rfl

/-- After `delete`, the key is gone. -/
theorem cache_find_delete_self (c : Cache V) (k : String) :
    CacheManager.find (CacheManager.delete c k) k = none := by
  unfold CacheManager.delete CacheManager.find
  induction c with
  | nil => rfl
  | cons p t ih =>
    by_cases hp : p.1 == k
    · simpa [List.filter, hp] using ih
    · simp only [List.filter, hp]
      simpa [List.find?, hp] using ih

end CacheLemmas

/-! ### Claim C3 — cache TTL property

`CacheManager.get` treats an entry as expired only when
`Date.now() > item.expires` (strict), so a read at elapsed time exactly
`ttl` still returns the stored value: the claim's "miss for `t >= ttl`"
fails on the boundary `t = ttl`. The amended statement (hit for
`t <= ttl`, miss-and-remove for `t > ttl`) is proved below.
-/

/-- C3 counterexample: with `set(k, 7, ttl = 1s)` performed at time 0, a
`get(k)` at elapsed time exactly `ttl` (1000 ms) returns the value `7`,
not a miss — refuting the claim that a `get` at elapsed time `t >= ttl`
returns a miss. -/
theorem cache_ttl_boundary_counterexample :
    (CacheManager.get
        (CacheManager.set ([] : Cache Nat) "k" 7 1 0) "k" 1000).2 = some 7 := by
  decide

/-- C3 (amended): after `set(k, v, ttl)` at time `now`, a `get(k)` at
elapsed time `t ≤ ttl` returns `v`; at elapsed time `t > ttl` it returns
a miss and removes the entry from the cache (times in ms, `ttl` in
seconds as in the source). -/
theorem cache_ttl_amended {V : Type} (c : Cache V) (k : String) (v : V)
    (ttl now t : Nat) (httl : 0 < ttl) :
    (t ≤ ttl * 1000 →
      (CacheManager.get (CacheManager.set c k v ttl now) k (now + t)).2 = some v) ∧
    (ttl * 1000 < t →
      (CacheManager.get (CacheManager.set c k v ttl now) k (now + t)).2 = none ∧
      CacheManager.find
        (CacheManager.get (CacheManager.set c k v ttl now) k (now + t)).1 k
        = none) := by
  have hfind := cache_find_set_self c k v ttl now
  constructor
  · intro ht
    have hc : ¬ (now + t > now + ttl * 1000) := by omega
    unfold CacheManager.get
    rw [hfind]
    dsimp only
    rw [if_neg hc]
  · intro ht
    have hc : now + t > now + ttl * 1000 := by omega
    unfold CacheManager.get
    rw [hfind]
    dsimp only
    rw [if_pos hc]
    exact ⟨rfl, cache_find_delete_self _ k⟩

/-- C3 witness: instantiates `cache_ttl_amended` at `ttl = 1` s with a
hit at elapsed 500 ms and a miss (with removal) at elapsed 1001 ms. -/
theorem cache_ttl_amended_witness :
    (CacheManager.get (CacheManager.set ([] : Cache Nat) "k" 7 1 0) "k" 500).2
        = some 7 ∧
    (CacheManager.get (CacheManager.set ([] : Cache Nat) "k" 7 1 0) "k" 1001).2
        = none := by
  refine ⟨(cache_ttl_amended ([] : Cache Nat) "k" 7 1 0 500 (by decide)).1
      (by decide), ?_⟩
  exact ((cache_ttl_amended ([] : Cache Nat) "k" 7 1 0 1001 (by decide)).2
      (by decide)).1

/-! ## Retry policy (services/sheets/errorHandler.js, two variants)

The repository holds two `SheetsErrorHandler` implementations: a static
class with a bounded `for` loop (`errorHandler.js`) and an instance
class with recursive self-calls (the unnamed module). Errors thrown by
the Google client are duck-typed JS objects; we model the fields the
classifiers inspect: `code` (a string such as `'ETIMEDOUT'` or a
number), `response.status`, `errors[].reason`, and `message`. The
fallible operation is modelled as a function from the attempt index to
an `Except` result, and `withRetry` is instrumented to also report the
number of attempts performed and the list of delays slept. -/

/-- A JS value that can sit in `error.code`: a number or a string. -/
inductive JsVal
  | num (n : Int)
  | str (s : String)
  deriving DecidableEq, Repr

/-- JS truthiness for `JsVal` (`0` and `''` are falsy). -/
def JsVal.truthy : JsVal → Bool
  | .num n => n != 0
  | .str s => s != ""

/-- The error shape inspected by both classifiers: `error.code`,
`error.response.status`, the `reason` fields of `error.errors`, and
`error.message`. An absent field is `none` / an empty list. -/
structure JsError where
  code : Option JsVal := none
  responseStatus : Option Int := none
  reasons : List String := []
  message : String := ""
  deriving DecidableEq, Repr

/-- The default `JsError` (used only for the dead post-loop branch of
the loop-shaped `withRetry`, where JS would throw `lastError`). -/
def emptyJsError : JsError := {}

namespace SheetsErrorHandler

/-- `SheetsErrorHandler.MAX_RETRIES` (errorHandler.js). -/
def MAX_RETRIES : Nat := 3

/-- `SheetsErrorHandler.BASE_DELAY` in ms (errorHandler.js). -/
def BASE_DELAY : Nat := 1000

/-- Retryable HTTP status codes of `isRetryableError` (errorHandler.js). -/
def retryableCodes : List Int := [408, 429, 500, 502, 503, 504]

/-- Retryable Google API error reasons (errorHandler.js). -/
def retryableGoogleErrorCodes : List String :=
  ["rateLimitExceeded", "userRateLimitExceeded", "quotaExceeded",
   "backendError", "internalError"]

/-- Retryable network error codes (errorHandler.js). -/
def retryableNetworkErrors : List String :=
  ["ETIMEDOUT", "ECONNRESET", "ECONNREFUSED", "ENOTFOUND", "ENETUNREACH"]

/-- `const code = error.code || (error.response && error.response.status)`
from `isRetryableError`: a falsy `error.code` falls back to the response
status. -/
def errCode (e : JsError) : Option JsVal :=
  match e.code with
  | some v => if v.truthy then some v else e.responseStatus.map JsVal.num
  | none => e.responseStatus.map JsVal.num

/-- `SheetsErrorHandler.isRetryableError(error)` (errorHandler.js):
retryable iff the HTTP/google numeric code is in `retryableCodes`, or
some `errors[].reason` is in `retryableGoogleErrorCodes`, or the string
`error.code` is in `retryableNetworkErrors`; anything else is fatal. -/
def isRetryableError (e : JsError) : Bool :=
  let httpHit := match errCode e with
    | some (.num n) => n != 0 && retryableCodes.contains n
    | some (.str _) => false
    | none => false
  if httpHit then true
  else if e.reasons.any (fun r => r != "" && retryableGoogleErrorCodes.contains r)
    then true
  else match e.code with
    | some (.str s) => s != "" && retryableNetworkErrors.contains s
    | _ => false

/-- Loop body of the static `withRetry` (errorHandler.js): JS
`for (let attempt = 1; attempt <= maxRetries + 1; attempt++)`, with
`fuel = maxRetries + 2 - attempt` remaining iterations. Returns the
number of attempts performed, the delays slept (ms), and the result; the
`fuel = 0` branch is the post-loop `throw lastError`. -/
def withRetryGo {A : Type} (op : Nat → Except JsError A)
    (maxRetries baseDelay : Nat) :
    Nat → Nat → Option JsError → Nat × List Nat × Except JsError A
  | _, 0, last => (0, [], .error (last.getD emptyJsError))
  | attempt, fuel + 1, _ =>
    match op attempt with
    | .ok a => (1, [], .ok a)
    | .error e =>
      if attempt > maxRetries then (1, [], .error e)
      else if ¬ isRetryableError e then (1, [], .error e)
      else
        let delay := baseDelay * 2 ^ (attempt - 1)
        let r := withRetryGo op maxRetries baseDelay (attempt + 1) fuel (some e)
        (r.1 + 1, delay :: r.2.1, r.2.2)

/-- `SheetsErrorHandler.withRetry(operation, options)` (errorHandler.js),
instrumented with the attempt count and the delay list. -/
def withRetry {A : Type} (op : Nat → Except JsError A)
    (maxRetries baseDelay : Nat) : Nat × List Nat × Except JsError A :=
  withRetryGo op maxRetries baseDelay 1 (maxRetries + 1) none

/-- `RETRYABLE_ERROR_CODES` of the recursive variant (unnamed module). -/
def RETRYABLE_ERROR_CODES : List Int := [429, 500, 502, 503, 504]

/-- The `error.message.includes('quota') || ... ('rate limit') || ...
('timeout')` check of the recursive variant's `isRetryable`. -/
def messageRetryCheck (e : JsError) : Bool :=
  strContains e.message "quota" || strContains e.message "rate limit" ||
    strContains e.message "timeout"

/-- The `error.code` branch of the recursive variant's `isRetryable`:
a `switch` over string codes whose `default` is
`error.code.startsWith('E')`. A truthy numeric `error.code` reaches
`startsWith` on a number, which throws a `TypeError` in JS — modelled as
`none`. -/
def isRetryableNoResp (e : JsError) : Option Bool :=
  match e.code with
  | some (.str s) =>
    if s != "" then
      some (if s ∈ ["ECONNRESET", "ETIMEDOUT", "ESOCKETTIMEDOUT",
                    "ENOTFOUND", "ECONNREFUSED"] then true
            else if s ∈ ["INVALID_ARGUMENT", "NOT_FOUND", "PERMISSION_DENIED"]
              then false
            else jsStartsWith s "E")
    else some (messageRetryCheck e)
  | some (.num n) =>
    if n != 0 then none else some (messageRetryCheck e)
  | none => some (messageRetryCheck e)

/-- `isRetryable(error)` of the recursive variant (unnamed module):
a truthy `error.response.status` is checked against
`RETRYABLE_ERROR_CODES`; otherwise the `error.code` switch applies, and
with no code the message is sniffed for quota/rate-limit/timeout
wording. `none` models the classifier itself throwing. -/
def isRetryable (e : JsError) : Option Bool :=
  match e.responseStatus with
  | some st =>
    if st != 0 then some (RETRYABLE_ERROR_CODES.contains st)
    else isRetryableNoResp e
  | none => isRetryableNoResp e

/-- `formatError(error)` of the recursive variant: errors carrying a
response get a normalized API-error message; errors with a code and a
`errors` payload get another; unknown shapes pass through unchanged. -/
def formatError (e : JsError) : JsError :=
  match e.responseStatus with
  | some st =>
    { message := "Google Sheets API Error: " ++ toString st,
      responseStatus := some st }
  | none =>
    if e.code.isSome && ¬ e.reasons.isEmpty then
      { message := "Google Sheets API Error: " ++ e.message,
        code := e.code, reasons := e.reasons }
    else e

/-- The `TypeError` raised when the recursive classifier calls
`startsWith` on a numeric `error.code`. -/
def typeErrorJs : JsError :=
  { message := "TypeError: error.code.startsWith is not a function" }

/-- `calculateRetryDelay(retries)` of the recursive variant:
`floor(baseDelay + jitter)` where `baseDelay = retryDelayMs *
retryBackoffFactor ^ retries` and `jitter = Math.random() * 0.3 *
baseDelay`; the random sample is passed in as `rand ∈ [0, 1)`. -/
def calculateRetryDelay (retryDelayMs retryBackoffFactor : Nat) (rand : ℚ)
    (retries : Nat) : Int :=
  let baseDelay : ℚ := (retryDelayMs : ℚ) * (retryBackoffFactor : ℚ) ^ retries
  let jitter : ℚ := rand * (3 / 10) * baseDelay
  ⌊baseDelay + jitter⌋

/-- Recursion core of the recursive variant's `withRetry(fn, retries)`:
structural recursion on `remaining = maxRetries - retries`, so that the
JS guard `retries >= this.maxRetries` is the `remaining = 0` case.
Returns the attempt count, the delays slept, and the result; `rand n`
is the `Math.random()` sample drawn before the `(n+1)`-th retry. -/
def withRetryRecGo {A : Type} (op : Nat → Except JsError A)
    (retryDelayMs retryBackoffFactor : Nat) (rand : Nat → ℚ) :
    Nat → Nat → Nat × List Int × Except JsError A
  | 0, retries =>
    match op retries with
    | .ok a => (1, [], .ok a)
    | .error e => (1, [], .error (formatError e))
  | remaining + 1, retries =>
    match op retries with
    | .ok a => (1, [], .ok a)
    | .error e =>
      match isRetryable e with
      | none => (1, [], .error typeErrorJs)
      | some false => (1, [], .error (formatError e))
      | some true =>
        let delay := calculateRetryDelay retryDelayMs retryBackoffFactor
          (rand retries) retries
        let r := withRetryRecGo op retryDelayMs retryBackoffFactor rand
          remaining (retries + 1)
        (r.1 + 1, delay :: r.2.1, r.2.2)

/-- `withRetry(fn, retries)` of the recursive variant (unnamed module). -/
def withRetryRec {A : Type} (op : Nat → Except JsError A)
    (maxRetries retryDelayMs retryBackoffFactor : Nat) (rand : Nat → ℚ)
    (retries : Nat) : Nat × List Int × Except JsError A :=
  withRetryRecGo op retryDelayMs retryBackoffFactor rand
    (maxRetries - retries) retries

end SheetsErrorHandler

section RetryLemmas

open SheetsErrorHandler

variable {A : Type}

/-- Attempt count of the loop-shaped `withRetry` when every attempt
fails with a retryable error: the loop runs its whole fuel. -/
theorem withRetryGo_always_fails (op : Nat → Except JsError A)
    (maxRetries baseDelay : Nat)
    (hfail : ∀ n, ∃ e, op n = .error e ∧ isRetryableError e = true) :
    ∀ fuel attempt last, attempt + fuel = maxRetries + 2 →
      (withRetryGo op maxRetries baseDelay attempt fuel last).1 = fuel ∧
      ∃ e, (withRetryGo op maxRetries baseDelay attempt fuel last).2.2 =
        .error e := by
  intro fuel
  induction fuel with
  | zero =>
    intro attempt last _
    exact ⟨rfl, last.getD emptyJsError, rfl⟩
  | succ fuel ih =>
    intro attempt last hsum
    obtain ⟨e, he, hr⟩ := hfail attempt
    by_cases hgt : attempt > maxRetries
    · have hfuel : fuel = 0 := by omega
      subst hfuel
      refine ⟨?_, e, ?_⟩ <;> simp [withRetryGo, he, if_pos hgt]
    · have h1 := ih (attempt + 1) (some e) (by omega)
      obtain ⟨e2, he2⟩ := h1.2
      refine ⟨?_, e2, ?_⟩ <;>
        simp [withRetryGo, he, if_neg hgt, hr, h1.1, he2]

/-- Attempt count of the recursive `withRetry` when every attempt fails
with a retryable error: one attempt per unit of remaining budget plus
the final failing one. -/
theorem withRetryRecGo_always_fails (op : Nat → Except JsError A)
    (retryDelayMs factor : Nat) (rand : Nat → ℚ)
    (hfail : ∀ n, ∃ e, op n = .error e ∧ isRetryable e = some true) :
    ∀ remaining retries,
      (withRetryRecGo op retryDelayMs factor rand remaining retries).1 =
        remaining + 1 ∧
      ∃ e, (withRetryRecGo op retryDelayMs factor rand remaining
        retries).2.2 = .error e := by
  intro remaining
  induction remaining with
  | zero =>
    intro retries
    obtain ⟨e, he, _⟩ := hfail retries
    refine ⟨?_, formatError e, ?_⟩ <;> simp [withRetryRecGo, he]
  | succ remaining ih =>
    intro retries
    obtain ⟨e, he, hr⟩ := hfail retries
    have h1 := ih (retries + 1)
    obtain ⟨e2, he2⟩ := h1.2
    refine ⟨?_, e2, ?_⟩ <;> simp [withRetryRecGo, he, hr, h1.1, he2]

/-- C2: for an operation that fails with a retryable-classified error on
every attempt, both `withRetry` implementations perform exactly
`maxRetries + 1` attempts in total and then surface a single error to
the caller. -/
theorem retry_bound_property (op opR : Nat → Except JsError A)
    (maxRetries baseDelay retryDelayMs factor : Nat) (rand : Nat → ℚ)
    (h1 : ∀ n, ∃ e, op n = .error e ∧ isRetryableError e = true)
    (h2 : ∀ n, ∃ e, opR n = .error e ∧ isRetryable e = some true) :
    (withRetry op maxRetries baseDelay).1 = maxRetries + 1 ∧
    (∃ e, (withRetry op maxRetries baseDelay).2.2 = .error e) ∧
    (withRetryRec opR maxRetries retryDelayMs factor rand 0).1 =
      maxRetries + 1 ∧
    (∃ e, (withRetryRec opR maxRetries retryDelayMs factor rand 0).2.2 =
      .error e) := by
  have hl := withRetryGo_always_fails op maxRetries baseDelay h1
    (maxRetries + 1) 1 none (by omega)
  have hr := withRetryRecGo_always_fails opR retryDelayMs factor rand h2
    maxRetries 0
  refine ⟨hl.1, hl.2, ?_, ?_⟩
  · simpa [withRetryRec] using hr.1
  · simpa [withRetryRec] using hr.2

/-- A concrete always-failing retryable error: HTTP 500. -/
def err500 : JsError := { responseStatus := some 500 }

/-- C2 witness: with the default `maxRetries = 3` and an operation that
always fails with HTTP 500, both implementations perform exactly 4
attempts and raise. -/
theorem retry_bound_property_witness :
    (withRetry (fun _ => .error err500 : Nat → Except JsError Unit)
        MAX_RETRIES BASE_DELAY).1 = 4 ∧
    (withRetryRec (fun _ => .error err500 : Nat → Except JsError Unit)
        3 1000 2 (fun _ => 0) 0).1 = 4 := by
  have h := retry_bound_property
    (fun _ => .error err500 : Nat → Except JsError Unit)
    (fun _ => .error err500) 3 1000 1000 2 (fun _ => 0)
    (fun _ => ⟨err500, rfl, by decide⟩)
    (fun _ => ⟨err500, rfl, by decide⟩)
  exact ⟨h.1, h.2.2.1⟩

/-! ### Claim C7 — fatal errors: one attempt, zero delay

The operational half of the claim holds for both variants. But the
claimed classification — "any unrecognized error shape is fatal" — fails
on the recursive variant: its `switch` default treats *every* nonempty
code string beginning with `'E'` as a retryable network error, so the
unrecognized shape `{code: 'EUNKNOWN'}` is retried to exhaustion instead
of failing on the first attempt. -/

/-- An error of unrecognized shape: a code string not in any explicit
list of either classifier. -/
def errEUnknown : JsError := { code := some (.str "EUNKNOWN") }

/-- C7 counterexample: the error `{code: 'EUNKNOWN'}` has an
unrecognized shape, which the claim classifies as fatal (exactly 1
attempt); yet the recursive variant classifies it retryable and an
operation always failing with it is attempted 4 times under
`maxRetries = 3`. -/
theorem retry_fatal_counterexample :
    SheetsErrorHandler.isRetryable errEUnknown = some true ∧
    (SheetsErrorHandler.withRetryRec
        (fun _ => .error errEUnknown : Nat → Except JsError Unit)
        3 1000 2 (fun _ => 0) 0).1 = 4 := by
  constructor
  · decide
  · rfl

/-- C7 (amended): for every operation whose first failure is classified
fatal by the respective classifier, `withRetry` performs exactly 1
attempt, sleeps no delay, and raises immediately. (In `errorHandler.js`
the retryable set is exactly HTTP 408/429/5xx, the quota/rate-limit and
backend/internal Google reasons, and the listed network codes —
everything else, including unrecognized shapes, is fatal; the recursive
variant additionally retries any nonempty `error.code` string starting
with `'E'` and any message mentioning quota/rate limit/timeout, so
unrecognized `E*` shapes are retried there.) -/
theorem retry_fatal_amended {A : Type} (op opR : Nat → Except JsError A)
    (maxRetries baseDelay retryDelayMs factor : Nat) (rand : Nat → ℚ)
    (e eR : JsError)
    (h1 : op 1 = .error e)
    (hf1 : SheetsErrorHandler.isRetryableError e = false)
    (h2 : opR 0 = .error eR)
    (hf2 : SheetsErrorHandler.isRetryable eR = some false) :
    SheetsErrorHandler.withRetry op maxRetries baseDelay =
      (1, [], .error e) ∧
    SheetsErrorHandler.withRetryRec opR maxRetries retryDelayMs factor
        rand 0 =
      (1, [], .error (SheetsErrorHandler.formatError eR)) := by
  constructor
  · unfold SheetsErrorHandler.withRetry
    cases maxRetries with
    | zero =>
      simp [SheetsErrorHandler.withRetryGo, h1]
    | succ m =>
      simp [SheetsErrorHandler.withRetryGo, h1, hf1]
  · unfold SheetsErrorHandler.withRetryRec
    cases maxRetries with
    | zero =>
      simp [SheetsErrorHandler.withRetryRecGo, h2]
    | succ m =>
      simp [SheetsErrorHandler.withRetryRecGo, h2, hf2]

/-- A fatal-classified error for both classifiers: a permission-denied
code. -/
def errPermissionDenied : JsError := { code := some (.str "PERMISSION_DENIED") }

/-- C7 witness: an operation whose first failure is the fatal
`PERMISSION_DENIED` error is attempted once, with no delays, by both
implementations. -/
theorem retry_fatal_amended_witness :
    SheetsErrorHandler.withRetry
        (fun _ => .error errPermissionDenied : Nat → Except JsError Unit)
        3 1000 = (1, [], .error errPermissionDenied) ∧
    SheetsErrorHandler.withRetryRec
        (fun _ => .error errPermissionDenied : Nat → Except JsError Unit)
        3 1000 2 (fun _ => 0) 0 =
      (1, [], .error (SheetsErrorHandler.formatError errPermissionDenied)) :=
  retry_fatal_amended
    (fun _ => .error errPermissionDenied)
    (fun _ => .error errPermissionDenied)
    3 1000 1000 2 (fun _ => 0) errPermissionDenied errPermissionDenied
    rfl (by decide) rfl (by decide)

/-! ### Claim C9 — exponential backoff with bounded jitter

In the loop variant the delay before retry `n` is exactly
`baseDelay * 2^(n-1)` (zero jitter); in the recursive variant it is
`floor(base + rand * 0.3 * base)` with `base = retryDelayMs *
factor^(n-1)` and `rand ∈ [0,1)`, i.e. `base` plus a jitter of at most
30% of `base`. -/

/-- The delays slept by the loop-shaped retry are
`baseDelay * 2^(attempt-1)` for consecutive attempts starting at the
initial one. -/
theorem withRetryGo_delays (op : Nat → Except JsError A)
    (maxRetries baseDelay : Nat) :
    ∀ fuel attempt last, ∃ k,
      (withRetryGo op maxRetries baseDelay attempt fuel last).2.1 =
        (List.range' attempt k).map (fun a => baseDelay * 2 ^ (a - 1)) := by
  intro fuel
  induction fuel with
  | zero => intro attempt last; exact ⟨0, rfl⟩
  | succ fuel ih =>
    intro attempt last
    cases hop : op attempt with
    | ok a => exact ⟨0, by simp [withRetryGo, hop]⟩
    | error e =>
      by_cases hgt : attempt > maxRetries
      · exact ⟨0, by simp [withRetryGo, hop, hgt]⟩
      · by_cases hr : isRetryableError e
        · obtain ⟨k, hk⟩ := ih (attempt + 1) (some e)
          refine ⟨k + 1, ?_⟩
          simp [withRetryGo, hop, hgt, hr, hk, List.range'_succ]
        · exact ⟨0, by simp [withRetryGo, hop, hgt, hr]⟩

/-- The delays slept by the recursive retry are
`calculateRetryDelay(retries)` for consecutive `retries` values starting
at the initial one. -/
theorem withRetryRecGo_delays (op : Nat → Except JsError A)
    (retryDelayMs factor : Nat) (rand : Nat → ℚ) :
    ∀ remaining retries, ∃ k,
      (withRetryRecGo op retryDelayMs factor rand remaining retries).2.1 =
        (List.range' retries k).map
          (fun r => calculateRetryDelay retryDelayMs factor (rand r) r) := by
  intro remaining
  induction remaining with
  | zero =>
    intro retries
    refine ⟨0, ?_⟩
    cases hop : op retries <;> simp [withRetryRecGo, hop]
  | succ remaining ih =>
    intro retries
    cases hop : op retries with
    | ok a => exact ⟨0, by simp [withRetryRecGo, hop]⟩
    | error e =>
      cases hr : isRetryable e with
      | none => exact ⟨0, by simp [withRetryRecGo, hop, hr]⟩
      | some b =>
        cases b with
        | false => exact ⟨0, by simp [withRetryRecGo, hop, hr]⟩
        | true =>
          obtain ⟨k, hk⟩ := ih (retries + 1)
          refine ⟨k + 1, ?_⟩
          simp [withRetryRecGo, hop, hr, hk, List.range'_succ]

/-- `calculateRetryDelay` splits into the exact exponential-backoff term
plus a jitter of at most 30% of it, for any random sample in `[0, 1)`. -/
theorem calculateRetryDelay_decomposition (retryDelayMs factor retries : Nat)
    (rand : ℚ) (h0 : 0 ≤ rand) (h1 : rand < 1) :
    ∃ j : ℚ, 0 ≤ j ∧
      j ≤ 3 / 10 * ((retryDelayMs : ℚ) * (factor : ℚ) ^ retries) ∧
      ((calculateRetryDelay retryDelayMs factor rand retries : ℤ) : ℚ) =
        (retryDelayMs : ℚ) * (factor : ℚ) ^ retries + j := by
  unfold calculateRetryDelay
  set base : ℚ := (retryDelayMs : ℚ) * (factor : ℚ) ^ retries with hbase
  have hbase0 : 0 ≤ base := by positivity
  have hjit0 : 0 ≤ rand * (3 / 10) * base := by positivity
  have hjitle : rand * (3 / 10) * base ≤ 3 / 10 * base := by nlinarith
  have hbaseInt : base = ((retryDelayMs * factor ^ retries : ℕ) : ℚ) := by
    push_cast; ring
  have hfloor : ⌊base + rand * (3 / 10) * base⌋ =
      (retryDelayMs * factor ^ retries : ℕ) + ⌊rand * (3 / 10) * base⌋ := by
    rw [hbaseInt, Int.floor_nat_add]
  refine ⟨(⌊rand * (3 / 10) * base⌋ : ℚ), ?_, ?_, ?_⟩
  · exact_mod_cast Int.le_floor.mpr (by exact_mod_cast hjit0)
  · exact le_trans (Int.floor_le _) hjitle
  · rw [hfloor]
    push_cast [hbaseInt]
    ring

/-- C9: in every retry sequence of either implementation, the delay
waited before retry attempt `n` (the `n`-th element of the delay list,
`n ≥ 1`) equals `base_delay * backoff_factor^(n-1)` plus a bounded
random jitter of at most 30% of that term — identically zero jitter in
the loop variant, `floor(rand * 0.3 * base)` with `rand ∈ [0,1)` in the
recursive variant. -/
theorem retry_delay_property (op opR : Nat → Except JsError A)
    (maxRetries baseDelay retryDelayMs factor : Nat) (rand : Nat → ℚ)
    (hrand : ∀ n, 0 ≤ rand n ∧ rand n < 1) :
    (∀ i, ∀ hi : i < (withRetry op maxRetries baseDelay).2.1.length,
      (withRetry op maxRetries baseDelay).2.1.get ⟨i, hi⟩ =
        baseDelay * 2 ^ i) ∧
    (∀ i, ∀ hi : i <
        (withRetryRec opR maxRetries retryDelayMs factor rand 0).2.1.length,
      ∃ j : ℚ, 0 ≤ j ∧
        j ≤ 3 / 10 * ((retryDelayMs : ℚ) * (factor : ℚ) ^ i) ∧
        (((withRetryRec opR maxRetries retryDelayMs factor rand 0).2.1.get
            ⟨i, hi⟩ : ℤ) : ℚ) =
          (retryDelayMs : ℚ) * (factor : ℚ) ^ i + j) := by
  constructor
  · intro i hi
    obtain ⟨k, hk⟩ := withRetryGo_delays op maxRetries baseDelay
      (maxRetries + 1) 1 none
    have hk' : (withRetry op maxRetries baseDelay).2.1 =
        (List.range' 1 k).map (fun a => baseDelay * 2 ^ (a - 1)) := hk
    rw [List.get_eq_getElem]
    conv in (withRetry op maxRetries baseDelay).2.1 => rw [hk']
    rw [List.getElem_map, List.getElem_range'_1]
    simp
  · intro i hi
    obtain ⟨k, hk⟩ := withRetryRecGo_delays opR retryDelayMs factor rand
      maxRetries 0
    have hk' : (withRetryRec opR maxRetries retryDelayMs factor rand 0).2.1 =
        (List.range' 0 k).map
          (fun r => calculateRetryDelay retryDelayMs factor (rand r) r) := by
      simpa [withRetryRec] using hk
    have hget : (withRetryRec opR maxRetries retryDelayMs factor rand
        0).2.1.get ⟨i, hi⟩ =
        calculateRetryDelay retryDelayMs factor (rand i) i := by
      rw [List.get_eq_getElem]
      conv in (withRetryRec opR maxRetries retryDelayMs factor rand 0).2.1 =>
        rw [hk']
      rw [List.getElem_map, List.getElem_range'_1]
      simp
    rw [hget]
    exact calculateRetryDelay_decomposition retryDelayMs factor i (rand i)
      (hrand i).1 (hrand i).2

/-- C9 witness: with an always-failing HTTP-500 operation, default
parameters and `rand = 1/2`, the loop variant's delay before retry 2 is
`1000 * 2^1 = 2000` ms and the recursive variant's delay before retry 1
decomposes as `1000 + j` with `0 ≤ j ≤ 300`. -/
theorem retry_delay_property_witness :
    (withRetry (fun _ => .error err500 : Nat → Except JsError Unit)
        3 1000).2.1.get ⟨1, by decide⟩ = 1000 * 2 ^ 1 ∧
    ∃ j : ℚ, 0 ≤ j ∧ j ≤ 3 / 10 * ((1000 : ℚ) * (2 : ℚ) ^ 0) ∧
      (((withRetryRec (fun _ => .error err500 : Nat → Except JsError Unit)
          3 1000 2 (fun _ => 1 / 2) 0).2.1.get ⟨0, by decide⟩ : ℤ) : ℚ) =
        (1000 : ℚ) * (2 : ℚ) ^ 0 + j := by
  have h := retry_delay_property
    (fun _ => .error err500 : Nat → Except JsError Unit)
    (fun _ => .error err500) 3 1000 1000 2 (fun _ => 1 / 2)
    (fun _ => ⟨by norm_num, by norm_num⟩)
  exact ⟨h.1 1 (by decide), by simpa using h.2 0 (by decide)⟩

end RetryLemmas

/-! ## Report store cache invalidation (services/sheets/index.js)

`getData(range)` caches under the key
`sheets_${spreadsheetId}_${range}`. After a successful write,
`updateData(range)` deletes exactly that key, while `appendData(range)`
deletes by the pattern `sheets_${spreadsheetId}_${sheetName}` with
`sheetName = range.split('!')[0]`, i.e. every cached range of the
affected sheet. The remote write (performed through the retry policy) is
passed in as its `Except` outcome; on failure the exception propagates
before any invalidation runs. -/

namespace GoogleSheetsService

/-- The cache key `sheets_${spreadsheetId}_${range}` used by `getData`,
`updateData` and `appendData`. -/
def cacheKey (spreadsheetId range : String) : String :=
  "sheets_" ++ spreadsheetId ++ "_" ++ range

/-- `range.split('!')[0]`: the sheet-name part of an A1 range. -/
def sheetNameOf (range : String) : String :=
  (jsSplit range (Char.ofNat 33)).headD ""  -- separator: the char 0x21, i.e. the A1 bang

/-- The invalidation pattern used by `appendData`:
`sheets_${spreadsheetId}_${sheetName}`. -/
def cacheKeyPattern (spreadsheetId range : String) : String :=
  "sheets_" ++ spreadsheetId ++ "_" ++ sheetNameOf range

/-- `updateData(range, values)`: the retry-wrapped remote write is given
by its outcome; on success the cache entry for the updated range's key
is deleted, on failure the error propagates with the cache untouched. -/
def updateData {V : Type} (c : Cache V) (spreadsheetId range : String)
    (writeResult : Except JsError Unit) : Cache V × Except JsError Unit :=
  match writeResult with
  | .ok _ => (CacheManager.delete c (cacheKey spreadsheetId range), .ok ())
  | .error e => (c, .error e)

/-- `appendData(range, values)`: on success every cache entry whose key
contains `sheets_${spreadsheetId}_${sheetName}` is deleted, on failure
the error propagates with the cache untouched. -/
def appendData {V : Type} (c : Cache V) (spreadsheetId range : String)
    (writeResult : Except JsError Unit) : Cache V × Except JsError Unit :=
  match writeResult with
  | .ok _ =>
    (CacheManager.deleteByPattern c (cacheKeyPattern spreadsheetId range),
     .ok ())
  | .error e => (c, .error e)

end GoogleSheetsService

section InvalidationLemmas

variable {V : Type}

/-- `deleteByPattern` removes every key containing the pattern. -/
theorem find_deleteByPattern_of_contains (c : Cache V) (pat k : String)
    (hk : strContains k pat = true) :
    CacheManager.find (CacheManager.deleteByPattern c pat) k = none := by
  unfold CacheManager.deleteByPattern CacheManager.find
  induction c with
  | nil => rfl
  | cons p t ih =>
    rw [List.filter_cons]
    by_cases hkeep : strContains p.1 pat
    · rw [if_neg (by simp [hkeep])]
      exact ih
    · rw [if_pos (by simp [hkeep])]
      have hne : (p.1 == k) = false := by
        by_cases hbeq : p.1 == k
        · have heq : p.1 = k := by simpa using hbeq
          rw [heq] at hkeep
          exact absurd hk hkeep
        · simpa using hbeq
      rw [List.find?_cons_of_neg _ (by simp [hne])]
      exact ih

/-- A key absent from the cache reads as a miss. -/
theorem cache_get_of_find_none (c : Cache V) (k : String) (t : Nat)
    (h : CacheManager.find c k = none) :
    (CacheManager.get c k t).2 = none := by
  unfold CacheManager.get
  rw [h]

/-- C6: after a successful `updateData` targeting a range, a `get` for
the cache key of that range misses; after a successful `appendData`, a
`get` for every cache key containing the affected sheet's pattern (in
particular every key derived from a range of that sheet) misses; and the
miss lasts until the next `set` of the key, after which a fresh read
returns the new value. -/
theorem cache_invalidation_property (c : Cache V)
    (spreadsheetId range k : String) (t : Nat)
    (hk : strContains k (GoogleSheetsService.cacheKeyPattern spreadsheetId
      range) = true) :
    (CacheManager.get
        (GoogleSheetsService.updateData c spreadsheetId range (.ok ())).1
        (GoogleSheetsService.cacheKey spreadsheetId range) t).2 = none ∧
    (CacheManager.get
        (GoogleSheetsService.appendData c spreadsheetId range (.ok ())).1
        k t).2 = none ∧
    (∀ (v : V) (ttl now : Nat),
      (CacheManager.get
        (CacheManager.set
          (GoogleSheetsService.appendData c spreadsheetId range (.ok ())).1
          k v ttl now)
        k now).2 = some v) := by
  refine ⟨?_, ?_, ?_⟩
  · exact cache_get_of_find_none _ _ t (cache_find_delete_self c _)
  · exact cache_get_of_find_none _ _ t
      (find_deleteByPattern_of_contains c _ k hk)
  · intro v ttl now
    unfold CacheManager.get
    rw [cache_find_set_self]
    dsimp only
    rw [if_neg (by omega)]

/-- C6 witness: a concrete cache holding two cached ranges of the sheet
`'Отчеты'`; a successful append to `'Отчеты!A:G'` invalidates both; the
exact-range key also misses after `updateData`, and a later `set`
restores a hit. -/
theorem cache_invalidation_property_witness :
    (CacheManager.get
        (GoogleSheetsService.updateData
          ([("sheets_s1_Отчеты!A:G", ⟨7, 5000⟩)] : Cache Nat)
          "s1" "Отчеты!A:G" (.ok ())).1
        (GoogleSheetsService.cacheKey "s1" "Отчеты!A:G") 0).2 = none ∧
    (CacheManager.get
        (GoogleSheetsService.appendData
          ([("sheets_s1_Отчеты!A:G", ⟨7, 5000⟩)] : Cache Nat)
          "s1" "Отчеты!A:G" (.ok ())).1
        "sheets_s1_Отчеты!A1:B2" 0).2 = none ∧
    (CacheManager.get
        (CacheManager.set
          (GoogleSheetsService.appendData
            ([("sheets_s1_Отчеты!A:G", ⟨7, 5000⟩)] : Cache Nat)
            "s1" "Отчеты!A:G" (.ok ())).1
          "sheets_s1_Отчеты!A1:B2" 9 300 0)
        "sheets_s1_Отчеты!A1:B2" 0).2 = some 9 := by
  have h := cache_invalidation_property
    ([("sheets_s1_Отчеты!A:G", ⟨7, 5000⟩)] : Cache Nat)
    "s1" "Отчеты!A:G" "sheets_s1_Отчеты!A1:B2" 0 (by decide)
  exact ⟨h.1, h.2.1, h.2.2 9 300 0⟩

end InvalidationLemmas

/-! ## Dialogue states (controllers/telegram/states)

Per-user context (`SessionManager._createContext` plus the fields the
report flow adds), the `WeeklyReport` model
(services/sheets/models/WeeklyReport.js, the two-phase variant with the
`[1,10]` clamp), and the text-message handlers of the four report-flow
states. Side effects are explicit: each handler returns the updated
context, the list of messages sent (as tags naming the `sendMessage`
call sites), and the JS return value (`none` = `null`, "stay"; `some s`
= transition request). A JS `TypeError` path (reading a field of an
absent draft) is modelled as `Option.none` for the whole call — the
engine catches it. -/

/-! `config.states` (utils/config.js). -/

namespace ConfigStates

def NONE : String := "none"

def ENTERING_STATE : String := "entering_state"

def MARKING_TASKS : String := "marking_tasks"

def ADDING_TASKS : String := "adding_tasks"

def ENTERING_COMMENT : String := "entering_comment"

end ConfigStates

/-- JS `parseInt(text, 10)`: skip leading whitespace, optional sign,
then the longest digit prefix; `NaN` (here `none`) if no digit. -/
def parseIntJS (s : String) : Option Int :=
  let cs := s.toList.dropWhile Char.isWhitespace
  let signAndRest : Int × List Char :=
    match cs with
    | c :: rest =>
      if c == Char.ofNat 45 then (-1, rest)
      else if c == Char.ofNat 43 then (1, rest)
      else (1, cs)
    | [] => (1, [])
  let digits := signAndRest.2.takeWhile Char.isDigit
  if digits.isEmpty then none
  else some (signAndRest.1 *
    ((digits.foldl (fun acc c => acc * 10 + (c.toNat - 48)) 0 : Nat) : Int))

/-- An incoming text message; `text = none` models a non-text update. -/
structure Message where
  text : Option String := none
  deriving DecidableEq, Repr

/-- The JS truthiness test `message.text` used by every handler:
both an absent text and the empty string are falsy. -/
def msgText (m : Message) : Option String :=
  match m.text with
  | none => none
  | some t => if t = "" then none else some t

/-- The two-phase `WeeklyReport` model
(services/sheets/models/WeeklyReport.js): week number, date (epoch ms),
user, score (`state`), the three task lists and the comment. -/
structure WeeklyReport where
  weekNumber : Int
  date : Int
  userId : String
  username : String
  state : ℚ
  completedTasks : List String
  incompleteTasks : List String
  nextWeekPlans : List String
  comment : String
  deriving DecidableEq, Repr

/-- The `data` argument of `new WeeklyReport(data)`: absent fields are
`none`. -/
structure WeeklyReportInit where
  weekNumber : Option Int := none
  date : Option Int := none
  userId : Option String := none
  username : Option String := none
  state : Option ℚ := none
  completedTasks : Option (List String) := none
  incompleteTasks : Option (List String) := none
  nextWeekPlans : Option (List String) := none
  comment : Option String := none

/-- JS `data.state || 5`: an absent or zero (falsy) score defaults
to 5. -/
def jsOrQ (v : Option ℚ) (d : ℚ) : ℚ :=
  match v with
  | none => d
  | some q => if q = 0 then d else q

/-- The `WeeklyReport` constructor: every field defaulted, and the score
clamped by `Math.min(Math.max(data.state || 5, 1), 10)`. -/
def WeeklyReport.make (data : WeeklyReportInit) : WeeklyReport where
  weekNumber := data.weekNumber.getD 0
  date := data.date.getD 0
  userId := data.userId.getD ""
  username := data.username.getD ""
  state := min (max (jsOrQ data.state 5) 1) 10
  completedTasks := data.completedTasks.getD []
  incompleteTasks := data.incompleteTasks.getD []
  nextWeekPlans := data.nextWeekPlans.getD []
  comment := data.comment.getD ""

/-- Per-user session context (`SessionManager._createContext` plus the
report-flow fields): current state name, the draft report, and the
task-entry sub-phase flag of `AddingTasksState`. -/
structure BotCtx where
  userId : String
  state : Option String := none
  weeklyReport : Option WeeklyReport := none
  taskPhase : Option String := none
  deriving DecidableEq, Repr

/-- Tags naming the `sendMessage` call sites of the state handlers. -/
inductive Out
  /-- reportState: "please send a number 1..10" for a non-text update -/
  | scoreAskNumber
  /-- reportState: corrective "enter a number from 1 to 10" -/
  | scoreOutOfRange
  /-- the shared `_cancelReport` notice -/
  | cancelled
  /-- marking/adding tasks: "send a textual task" for a non-text update -/
  | taskAskText
  /-- per-state unknown-command help text -/
  | unknownCommandInfo
  /-- "you reached the maximum number of tasks (15)" -/
  | taskLimitReached
  /-- `_showCurrentTasks` display after adding a task -/
  | taskListShown
  /-- addingTasks: next-week-plans instructions after `/done` -/
  | plansPhaseIntro
  /-- addingTasks: next-week-plans instructions after `/skip` -/
  | plansPhaseIntroSkip
  /-- commentState: "send a textual comment" for a non-text update -/
  | commentAskText
  /-- commentState: "comment too long" -/
  | commentTooLong
  /-- `_showCurrentComment` display -/
  | commentShown
  /-- commentState: "sending the report..." progress notice -/
  | submitProgress
  /-- commentState: "report saved" -/
  | submitOk
  /-- commentState: `formatForDisplay` preview -/
  | reportPreview
  /-- commentState: "error while saving, try again later, your report is
  kept — retry with /submit" -/
  | submitFail
  deriving DecidableEq, Repr

/-- What a state handler produces: the updated context, the messages
sent, and the JS return value (`none` = stay, `some s` = transition). -/
abbrev StateResult := BotCtx × List Out × Option String

namespace ReportState

/-- `this.minStateValue`. -/
def minStateValue : Int := 1

/-- `this.maxStateValue`. -/
def maxStateValue : Int := 10

/-- `ReportState.handleMessage(context, message)`
(states/reportState.js): cancellation words discard the draft and go to
`None`; a parsed score in `[1,10]` is stored and the state advances to
`MarkingTasks`; anything else gets a corrective message and stays. -/
def handleMessage (ctx : BotCtx) (msg : Message) : Option StateResult :=
  match msgText msg with
  | none => some (ctx, [.scoreAskNumber], none)
  | some t =>
    let text := jsTrim t
    if text = "/cancel" || jsToLower text = "отмена" then
      some ({ ctx with weeklyReport := none }, [.cancelled],
        some ConfigStates.NONE)
    else
      match parseIntJS text with
      | none => some (ctx, [.scoreOutOfRange], none)
      | some v =>
        if v < minStateValue || v > maxStateValue then
          some (ctx, [.scoreOutOfRange], none)
        else
          match ctx.weeklyReport with
          | none => none
          | some wr =>
            some ({ ctx with weeklyReport := some { wr with state := (v : ℚ) } },
              [], some ConfigStates.MARKING_TASKS)

end ReportState

namespace MarkingTasksState

/-- `this.maxTasks`. -/
def maxTasks : Nat := 15

/-- `MarkingTasksState.handleMessage(context, message)` (unnamed
module): `/done` advances, `/cancel` discards, other commands get help;
a plain task line is appended to `completedTasks` unless the list
already has `maxTasks` entries, in which case a limit notice is sent and
nothing changes. -/
def handleMessage (ctx : BotCtx) (msg : Message) : Option StateResult :=
  match msgText msg with
  | none => some (ctx, [.taskAskText], none)
  | some t =>
    let text := jsTrim t
    if jsStartsWith text "/" then
      match (jsSplit text (Char.ofNat 32)).headD "" with
      | "/done" => some (ctx, [], some ConfigStates.ADDING_TASKS)
      | "/cancel" =>
        some ({ ctx with weeklyReport := none }, [.cancelled],
          some ConfigStates.NONE)
      | _ => some (ctx, [.unknownCommandInfo], none)
    else
      match ctx.weeklyReport with
      | none => none
      | some wr =>
        if wr.completedTasks.length ≥ maxTasks then
          some (ctx, [.taskLimitReached], none)
        else
          let wr' := { wr with completedTasks := wr.completedTasks ++ [text] }
          some ({ ctx with weeklyReport := some wr' }, [.taskListShown], none)

end MarkingTasksState

namespace AddingTasksState

/-- `this.maxTasks`. -/
def maxTasks : Nat := 15

/-- `AddingTasksState.handleMessage(context, message)`
(states/addingTasksState.js): a two-phase flow driven by
`context.taskPhase` (`'incompleteTasks'` by default, then
`'nextWeekPlans'`). `/done` and `/skip` advance the phase or leave to
`EnteringComment`; `/cancel` discards draft and phase; a plain task line
is appended to the current phase's list unless it already has `maxTasks`
entries. (The JS re-initialization of a missing `nextWeekPlans` array is
a no-op here because the constructor always provides the list.) -/
def handleMessage (ctx : BotCtx) (msg : Message) : Option StateResult :=
  let currentPhase := ctx.taskPhase.getD "incompleteTasks"
  match msgText msg with
  | none => some (ctx, [.taskAskText], none)
  | some t =>
    let text := jsTrim t
    if jsStartsWith text "/" then
      match (jsSplit text (Char.ofNat 32)).headD "" with
      | "/done" =>
        if currentPhase = "incompleteTasks" then
          match ctx.weeklyReport with
          | none => none
          | some _ =>
            some ({ ctx with taskPhase := some "nextWeekPlans" },
              [.plansPhaseIntro], none)
        else
          some ({ ctx with taskPhase := none }, [],
            some ConfigStates.ENTERING_COMMENT)
      | "/skip" =>
        if currentPhase = "incompleteTasks" then
          match ctx.weeklyReport with
          | none => none
          | some _ =>
            some ({ ctx with taskPhase := some "nextWeekPlans" },
              [.plansPhaseIntroSkip], none)
        else
          some ({ ctx with taskPhase := none }, [],
            some ConfigStates.ENTERING_COMMENT)
      | "/cancel" =>
        some ({ ctx with weeklyReport := none, taskPhase := none },
          [.cancelled], some ConfigStates.NONE)
      | _ => some (ctx, [.unknownCommandInfo], none)
    else
      match ctx.weeklyReport with
      | none => none
      | some wr =>
        let tasksArray := if currentPhase = "incompleteTasks" then
            wr.incompleteTasks else wr.nextWeekPlans
        if tasksArray.length ≥ maxTasks then
          some (ctx, [.taskLimitReached], none)
        else
          let wr' := if currentPhase = "incompleteTasks" then
              { wr with incompleteTasks := wr.incompleteTasks ++ [text] }
            else
              { wr with nextWeekPlans := wr.nextWeekPlans ++ [text] }
          some ({ ctx with weeklyReport := some wr' }, [.taskListShown], none)

end AddingTasksState

namespace CommentState

/-- `this.maxCommentLength`. -/
def maxCommentLength : Nat := 1000

/-- `CommentState._submitReport(context)` (states/commentState.js): the
outcome of `sheetsService.saveReport(context.weeklyReport)` is passed in
as `saveResult`. On success the draft is deleted from the context and
the handler returns `None`; on failure the try-again-later notice is
sent, the context (draft included) is left unchanged, and the handler
returns `null` (stay). -/
def submitReport (ctx : BotCtx) (saveResult : Except JsError Unit) :
    StateResult :=
  match saveResult with
  | .ok _ =>
    ({ ctx with weeklyReport := none },
     [.submitProgress, .submitOk, .reportPreview], some ConfigStates.NONE)
  | .error _ => (ctx, [.submitProgress, .submitFail], none)

/-- `CommentState.handleMessage(context, message)`
(states/commentState.js): `/skip` clears the comment and submits,
`/submit` submits, `/cancel` discards; a plain text within the length
bound replaces the comment. -/
def handleMessage (ctx : BotCtx) (msg : Message)
    (saveResult : Except JsError Unit) : Option StateResult :=
  match msgText msg with
  | none => some (ctx, [.commentAskText], none)
  | some t =>
    let text := jsTrim t
    if jsStartsWith text "/" then
      match (jsSplit text (Char.ofNat 32)).headD "" with
      | "/skip" =>
        match ctx.weeklyReport with
        | none => none
        | some wr =>
          some (submitReport
            { ctx with weeklyReport := some { wr with comment := "" } }
            saveResult)
      | "/submit" => some (submitReport ctx saveResult)
      | "/cancel" =>
        some ({ ctx with weeklyReport := none }, [.cancelled],
          some ConfigStates.NONE)
      | _ => some (ctx, [.unknownCommandInfo], none)
    else
      if text.toList.length > maxCommentLength then
        some (ctx, [.commentTooLong], none)
      else
        match ctx.weeklyReport with
        | none => none
        | some wr =>
          some ({ ctx with weeklyReport := some { wr with comment := text } },
            [.commentShown], none)

end CommentState

/-! ### Claim C4 — submit failure keeps the draft, success clears it -/

/-- C4: when submitting from the comment state fails with a store error,
the handler sends the try-again-later notice (`Out.submitFail`), returns
`null` (stay — no transition out of the comment state), and leaves the
context — in particular the draft report — unchanged, so `/submit` can
be retried; on a successful submit the draft is removed from the context
and the handler returns the initial state `None`. -/
theorem comment_submit_property (ctx : BotCtx) (wr : WeeklyReport)
    (err : JsError) (hwr : ctx.weeklyReport = some wr) :
    CommentState.handleMessage ctx { text := some "/submit" } (.error err) =
      some (ctx, [.submitProgress, .submitFail], none) ∧
    CommentState.handleMessage ctx { text := some "/submit" } (.ok ()) =
      some ({ ctx with weeklyReport := none },
        [.submitProgress, .submitOk, .reportPreview],
        some ConfigStates.NONE) :=
  ⟨rfl, rfl⟩

/-- A concrete draft built by the `WeeklyReport` constructor. -/
def sampleReport : WeeklyReport :=
  WeeklyReport.make
    { userId := some "42", username := some "u", state := some 7 }

/-- A concrete comment-state context holding `sampleReport`. -/
def commentCtx : BotCtx :=
  { userId := "42", state := some ConfigStates.ENTERING_COMMENT,
    weeklyReport := some sampleReport }

/-- C4 witness: `comment_submit_property` at a concrete context with a
draft and a concrete store error. -/
theorem comment_submit_property_witness :
    CommentState.handleMessage commentCtx { text := some "/submit" }
        (.error { message := "Google Sheets API Error: 500" }) =
      some (commentCtx, [.submitProgress, .submitFail], none) ∧
    CommentState.handleMessage commentCtx { text := some "/submit" }
        (.ok ()) =
      some ({ commentCtx with weeklyReport := none },
        [.submitProgress, .submitOk, .reportPreview],
        some ConfigStates.NONE) :=
  comment_submit_property commentCtx sampleReport
    { message := "Google Sheets API Error: 500" } rfl

/-! ### Claim C5 — score bounds

Out-of-range and non-parsing inputs are rejected with a corrective
message and no draft mutation — but the claim's "every non-numeric
text" overreaches: any case variant of the cancellation word
`"отмена"` (and the `/cancel` command) is non-numeric text that
instead discards the draft and transitions to `None`. -/

/-- A concrete score-entry context holding `sampleReport`. -/
def scoreCtx : BotCtx :=
  { userId := "42", state := some ConfigStates.ENTERING_STATE,
    weeklyReport := some sampleReport }

/-- C5 counterexample: the non-numeric text `"Отмена"` does not produce
a corrective message with the state returning "stay" — the handler
lower-cases it, recognizes the cancellation word and cancels the
report: the draft is deleted and the state transitions to `None`. -/
theorem score_bounds_counterexample :
    ReportState.handleMessage scoreCtx { text := some "Отмена" } =
      some ({ scoreCtx with weeklyReport := none }, [.cancelled],
        some ConfigStates.NONE) := by
  rfl

/-- C5 (amended): for every integer input outside `[1,10]` and every
non-numeric text other than the cancellation inputs (`/cancel` and any
case variant of `отмена`), the score-entry state sends the corrective
message, returns
"stay", and leaves the context (hence the draft's score) unchanged; an
accepted in-range score is stored exactly as entered (never clamped
in-flow); and the `[1,10]` clamp exists only as the defensive default of
the `WeeklyReport` constructor, whose score always lands in `[1,10]`. -/
theorem score_bounds_amended (ctx : BotCtx) (t : String) (ht : t ≠ "")
    (hc1 : jsTrim t ≠ "/cancel") (hc2 : jsToLower (jsTrim t) ≠ "отмена")
    (hrej : parseIntJS (jsTrim t) = none ∨
      ∃ v, parseIntJS (jsTrim t) = some v ∧ (v < 1 ∨ v > 10)) :
    ReportState.handleMessage ctx { text := some t } =
      some (ctx, [.scoreOutOfRange], none) ∧
    (∀ init : WeeklyReportInit,
      1 ≤ (WeeklyReport.make init).state ∧
      (WeeklyReport.make init).state ≤ 10) ∧
    (∀ (ctx2 : BotCtx) (wr : WeeklyReport) (t2 : String) (v : Int),
      ctx2.weeklyReport = some wr → t2 ≠ "" →
      jsTrim t2 ≠ "/cancel" → jsToLower (jsTrim t2) ≠ "отмена" →
      parseIntJS (jsTrim t2) = some v → 1 ≤ v → v ≤ 10 →
      ReportState.handleMessage ctx2 { text := some t2 } =
        some ({ ctx2 with weeklyReport := some { wr with state := (v : ℚ) } },
          [], some ConfigStates.MARKING_TASKS)) := by
  refine ⟨?_, ?_, ?_⟩
  · have hmt : msgText { text := some t } = some t := by
      simp [msgText, ht]
    unfold ReportState.handleMessage
    rw [hmt]
    dsimp only
    rw [if_neg (by simp [hc1, hc2])]
    rcases hrej with hrej | ⟨v, hv, hout⟩
    · rw [hrej]
    · rw [hv]
      dsimp only
      rw [if_pos (by rcases hout with hout | hout <;>
        simp [ReportState.minStateValue, ReportState.maxStateValue, hout])]
  · intro init
    unfold WeeklyReport.make
    constructor
    · dsimp only
      rw [le_min_iff]
      refine ⟨le_max_right _ _, ?_⟩
      norm_num
    · exact min_le_right _ _
  · intro ctx2 wr t2 v hwr2 ht2 hcc1 hcc2 hv h1 h10
    have hmt : msgText { text := some t2 } = some t2 := by
      simp [msgText, ht2]
    unfold ReportState.handleMessage
    rw [hmt]
    dsimp only
    rw [if_neg (by simp [hcc1, hcc2]), hv]
    dsimp only
    rw [if_neg (by
      simp only [ReportState.minStateValue, ReportState.maxStateValue,
        Bool.or_eq_true, decide_eq_true_eq, not_or, not_lt]
      omega), hwr2]

/-- C5 witness: the out-of-range integer `"15"` is rejected with the
corrective message, no transition and no draft change; the constructor's
clamp keeps a default-constructed report's score in `[1,10]`; and the
in-range entry `"7"` is stored exactly. -/
theorem score_bounds_amended_witness :
    ReportState.handleMessage scoreCtx { text := some "15" } =
      some (scoreCtx, [.scoreOutOfRange], none) ∧
    (1 ≤ (WeeklyReport.make {}).state ∧ (WeeklyReport.make {}).state ≤ 10) ∧
    ReportState.handleMessage scoreCtx { text := some "7" } =
      some ({ scoreCtx with
          weeklyReport := some { sampleReport with state := (7 : ℚ) } },
        [], some ConfigStates.MARKING_TASKS) := by
  have h := score_bounds_amended scoreCtx "15" (by decide) (by decide)
    (by decide) (Or.inr ⟨15, by decide, Or.inr (by norm_num)⟩)
  refine ⟨h.1, h.2.1 {}, ?_⟩
  exact h.2.2 scoreCtx sampleReport "7" 7 rfl (by decide) (by decide)
    (by decide) (by decide) (by norm_num) (by norm_num)

/-! ### Claim C10 — task lists are capped at 15 entries -/

/-- `MarkingTasksState.handleMessage` never grows `completedTasks`
beyond 15 entries: any message handled from a context whose draft list
has at most 15 entries leaves a draft list of at most 15 entries. -/
theorem marking_limit_invariant (ctx : BotCtx) (wr : WeeklyReport)
    (hwr : ctx.weeklyReport = some wr) (hb : wr.completedTasks.length ≤ 15)
    (msg : Message) (res : StateResult)
    (h : MarkingTasksState.handleMessage ctx msg = some res)
    (wrOut : WeeklyReport) (h2 : res.1.weeklyReport = some wrOut) :
    wrOut.completedTasks.length ≤ 15 := by
  unfold MarkingTasksState.handleMessage at h
  dsimp only at h
  repeat' split at h
  all_goals first
    | exact Option.noConfusion h
    | (simp only [Option.some.injEq] at h
       subst h
       dsimp only at h2
       try simp only [Option.some.injEq] at h2
       try subst h2
       simp_all [MarkingTasksState.maxTasks])
  all_goals omega

/-- `AddingTasksState.handleMessage` never grows `incompleteTasks` or
`nextWeekPlans` beyond 15 entries. -/
theorem adding_limit_invariant (ctx : BotCtx) (wr : WeeklyReport)
    (hwr : ctx.weeklyReport = some wr)
    (hb1 : wr.incompleteTasks.length ≤ 15)
    (hb2 : wr.nextWeekPlans.length ≤ 15)
    (msg : Message) (res : StateResult)
    (h : AddingTasksState.handleMessage ctx msg = some res)
    (wrOut : WeeklyReport) (h2 : res.1.weeklyReport = some wrOut) :
    wrOut.incompleteTasks.length ≤ 15 ∧ wrOut.nextWeekPlans.length ≤ 15 := by
  unfold AddingTasksState.handleMessage at h
  dsimp only at h
  repeat' split at h
  all_goals first
    | exact Option.noConfusion h
    | (simp only [Option.some.injEq] at h
       subst h
       dsimp only at h2
       try simp only [Option.some.injEq] at h2
       try subst h2
       simp_all [AddingTasksState.maxTasks])
  all_goals try omega
  all_goals constructor <;> omega

/-- C10: every draft task list is capped at 15 entries. When the current
phase's list already has 15 (or more) entries, a plain-text task message
is rejected with the limit notice, the context — hence the list — is
unchanged, and the handler returns `null` (no transition); this holds
for `completedTasks` in `MarkingTasks` and for `incompleteTasks` /
`nextWeekPlans` in the respective phase of `AddingTasks`. Consequently a
list within the cap never exceeds it under any message. -/
theorem task_limit_property (ctx : BotCtx) (wr : WeeklyReport) (t : String)
    (hwr : ctx.weeklyReport = some wr) (ht : t ≠ "")
    (hplain : jsStartsWith (jsTrim t) "/" = false) :
    (wr.completedTasks.length ≥ 15 →
      MarkingTasksState.handleMessage ctx { text := some t } =
        some (ctx, [.taskLimitReached], none)) ∧
    (ctx.taskPhase.getD "incompleteTasks" = "incompleteTasks" →
      wr.incompleteTasks.length ≥ 15 →
      AddingTasksState.handleMessage ctx { text := some t } =
        some (ctx, [.taskLimitReached], none)) ∧
    (ctx.taskPhase = some "nextWeekPlans" →
      wr.nextWeekPlans.length ≥ 15 →
      AddingTasksState.handleMessage ctx { text := some t } =
        some (ctx, [.taskLimitReached], none)) ∧
    (∀ (msg : Message) (res : StateResult) (wrOut : WeeklyReport),
      wr.completedTasks.length ≤ 15 →
      MarkingTasksState.handleMessage ctx msg = some res →
      res.1.weeklyReport = some wrOut → wrOut.completedTasks.length ≤ 15) ∧
    (∀ (msg : Message) (res : StateResult) (wrOut : WeeklyReport),
      wr.incompleteTasks.length ≤ 15 → wr.nextWeekPlans.length ≤ 15 →
      AddingTasksState.handleMessage ctx msg = some res →
      res.1.weeklyReport = some wrOut →
      wrOut.incompleteTasks.length ≤ 15 ∧
      wrOut.nextWeekPlans.length ≤ 15) := by
  have hmt : msgText { text := some t } = some t := by simp [msgText, ht]
  refine ⟨?_, ?_, ?_, ?_, ?_⟩
  · intro hlen
    unfold MarkingTasksState.handleMessage
    rw [hmt]
    dsimp only
    rw [if_neg (by simp [hplain]), hwr]
    dsimp only
    rw [if_pos (by simpa [MarkingTasksState.maxTasks] using hlen)]
  · intro hph hlen
    unfold AddingTasksState.handleMessage
    rw [hmt]
    dsimp only
    rw [if_neg (by simp [hplain]), hwr]
    dsimp only
    rw [hph]
    rw [if_pos (by simpa [AddingTasksState.maxTasks] using hlen)]
  · intro hph hlen
    unfold AddingTasksState.handleMessage
    rw [hmt]
    dsimp only
    rw [if_neg (by simp [hplain]), hwr, hph]
    dsimp only
    rw [if_pos ?_]
    case _ =>
      rw [if_neg (by decide)]
      simpa [AddingTasksState.maxTasks] using hlen
  · intro msg res wrOut hb hh hh2
    exact marking_limit_invariant ctx wr hwr hb msg res hh wrOut hh2
  · intro msg res wrOut hb1 hb2 hh hh2
    exact adding_limit_invariant ctx wr hwr hb1 hb2 msg res hh wrOut hh2

/-- A full 15-entry task list. -/
def fullTasks : List String := List.replicate 15 "task"

/-- A draft report with all three task lists at the 15-entry cap. -/
def limitReport : WeeklyReport :=
  { sampleReport with
      completedTasks := fullTasks
      incompleteTasks := fullTasks
      nextWeekPlans := fullTasks }

/-- A marking-tasks context at the cap. -/
def limitCtx : BotCtx :=
  { userId := "42", state := some ConfigStates.MARKING_TASKS,
    weeklyReport := some limitReport }

/-- An adding-tasks context at the cap, in the next-week-plans phase. -/
def plansLimitCtx : BotCtx := { limitCtx with taskPhase := some "nextWeekPlans" }

/-- C10 witness: with every list at 15 entries, a plain task line is
rejected with the limit notice and no change in all three situations. -/
theorem task_limit_property_witness :
    MarkingTasksState.handleMessage limitCtx { text := some "one more" } =
      some (limitCtx, [.taskLimitReached], none) ∧
    AddingTasksState.handleMessage limitCtx { text := some "one more" } =
      some (limitCtx, [.taskLimitReached], none) ∧
    AddingTasksState.handleMessage plansLimitCtx { text := some "one more" } =
      some (plansLimitCtx, [.taskLimitReached], none) := by
  have h1 := task_limit_property limitCtx limitReport "one more" rfl
    (by decide) (by decide)
  have h2 := task_limit_property plansLimitCtx limitReport "one more" rfl
    (by decide) (by decide)
  exact ⟨h1.1 (by decide), h1.2.1 (by decide) (by decide),
    h2.2.2.1 (by decide) (by decide)⟩

/-! ## User statistics (services/sheets/models/UserStats.js)

`UserStats.fromReports(reportRows, userId)` scans the raw report rows,
keeps those with at least 9 cells belonging to `userId` (strict equality
on `row[2]`), and aggregates: report count, sum of `parseFloat(row[4])`
scores, and the lengths of the JSON-parsed task arrays in `row[5]` /
`row[6]`. The output carries the average score rounded to one decimal
and the completion rate `round(completed / (completed+incomplete) *
100)`. `JSON.parse` is modelled by a parser covering the payloads the
repo writes (JSON arrays of string literals) and simple scalars; inputs
it cannot parse map to `none`, the catch path of the source. -/

/-- A spreadsheet cell (UNFORMATTED_VALUE read): a string or a number. -/
inductive Cell
  | str (s : String)
  | num (q : ℚ)
  deriving DecidableEq, Repr

/-- Result of `JSON.parse` as far as `fromReports` inspects it: an array
(of strings — the only array payload the repo writes) or any other
valid JSON value (`Array.isArray` false). -/
inductive JsParsed
  | arr (l : List String)
  | nonArr
  deriving DecidableEq, Repr

/-- JSON string-literal body after the opening quote: returns the
content and the rest of the input; an escape keeps the escaped
character. -/
def parseJsonStringBody : List Char → Option (List Char × List Char)
  | [] => none
  | c :: rest =>
    if c == Char.ofNat 34 then some ([], rest)
    else if c == Char.ofNat 92 then
      match rest with
      | [] => none
      | e :: rest2 =>
        (parseJsonStringBody rest2).map (fun p => (e :: p.1, p.2))
    else (parseJsonStringBody rest).map (fun p => (c :: p.1, p.2))

/-- Element loop of a JSON array of string literals. `expectValue` is
`true` before an element, `false` before a `,`/`]`; `fuel` bounds the
recursion by the input length. -/
def jsonArrayElems : Nat → List Char → List String → Bool →
    Option (List String)
  | 0, _, _, _ => none
  | fuel + 1, l, acc, expectValue =>
    match l.dropWhile Char.isWhitespace with
    | [] => none
    | c :: rest =>
      if expectValue then
        if c == Char.ofNat 34 then
          match parseJsonStringBody rest with
          | none => none
          | some (content, rest2) =>
            jsonArrayElems fuel rest2 (⟨content⟩ :: acc) false
        else if c == Char.ofNat 93 && acc.isEmpty then some []
        else none
      else
        if c == Char.ofNat 93 then some acc.reverse
        else if c == Char.ofNat 44 then jsonArrayElems fuel rest acc true
        else none

/-- `JSON.parse(s)` restricted to the shapes relevant here: a `[`
starts a string array, a quote a string, digits/sign a number,
`true`/`false`/`null` and `\x7b` an object — all non-arrays; anything
else throws (`none`). -/
def parseJsonValue (s : String) : Option JsParsed :=
  match s.toList.dropWhile Char.isWhitespace with
  | [] => none
  | c :: rest =>
    if c == Char.ofNat 91 then
      (jsonArrayElems (rest.length + 1) rest [] true).map .arr
    else if c == Char.ofNat 34 then
      (parseJsonStringBody rest).map (fun _ => JsParsed.nonArr)
    else if c.isDigit || c == Char.ofNat 45 then some .nonArr
    else if c == Char.ofNat 123 then some .nonArr
    else if jsStartsWith ⟨c :: rest⟩ "true" || jsStartsWith ⟨c :: rest⟩ "false"
        || jsStartsWith ⟨c :: rest⟩ "null" then some .nonArr
    else none

/-- `JSON.parse(cell || '[]')`: a falsy cell (empty string or zero)
parses the fallback `'[]'`; a number parses as a scalar; a string is
parsed as JSON. -/
def jsonParseCell : Cell → Option JsParsed
  | .num q => if q = 0 then some (.arr []) else some .nonArr
  | .str s => if s = "" then some (.arr []) else parseJsonValue s

/-- Digit-list value. -/
def digitsToNat (ds : List Char) : Nat :=
  ds.foldl (fun a c => a * 10 + (c.toNat - 48)) 0

/-- JS `parseFloat(s)` on plain decimal notation: leading whitespace,
optional sign, digits with an optional fractional part; `none` is `NaN`
(exponent notation is out of scope of the stored data). -/
def parseFloatJS (s : String) : Option ℚ :=
  let l := s.toList.dropWhile Char.isWhitespace
  let sgnRest : ℚ × List Char :=
    match l with
    | c :: rest =>
      if c == Char.ofNat 45 then (-1, rest)
      else if c == Char.ofNat 43 then (1, rest)
      else (1, l)
    | [] => (1, [])
  let ip := sgnRest.2.takeWhile Char.isDigit
  let afterInt := sgnRest.2.drop ip.length
  let fp :=
    match afterInt with
    | c :: rest => if c == Char.ofNat 46 then rest.takeWhile Char.isDigit
                   else []
    | [] => []
  if ip.isEmpty && fp.isEmpty then none
  else some (sgnRest.1 *
    ((digitsToNat ip : ℚ) + (digitsToNat fp : ℚ) / (10 : ℚ) ^ fp.length))

/-- `parseFloat(row[4]) || 0`: a numeric cell is itself, a string cell
is parsed, `NaN` falls back to `0`. -/
def cellScore : Cell → ℚ
  | .num q => q
  | .str s => (parseFloatJS s).getD 0

/-- JS `Math.round` (half away from zero on the nonnegative values used
here): `floor(q + 1/2)`. -/
def roundJS (q : ℚ) : ℤ := ⌊q + 1 / 2⌋

/-- The `UserStats` model of the two-phase variant: aggregate counters
plus the derived average and completion rate. -/
structure UserStats where
  totalReports : Nat
  averageState : ℚ
  completedTasks : Nat
  incompleteTasks : Nat
  completionRate : ℤ
  deriving DecidableEq, Repr

/-- The `UserStats` constructor: fields defaulted, and the completion
rate recomputed as `round(completed / (completed+incomplete) * 100)`
when tasks exist but the given rate is zero. -/
def UserStats.makeJS (totalReports : Nat) (averageState : ℚ)
    (completedTasks incompleteTasks : Nat) (completionRate : ℤ) :
    UserStats :=
  let rate :=
    if (completedTasks > 0 || incompleteTasks > 0) && completionRate == 0 then
      (if completedTasks + incompleteTasks > 0 then
        roundJS ((completedTasks : ℚ) /
          ((completedTasks : ℚ) + (incompleteTasks : ℚ)) * 100)
      else 0)
    else completionRate
  ⟨totalReports, averageState, completedTasks, incompleteTasks, rate⟩

/-- The running totals of the `fromReports` scan. -/
structure StatsAcc where
  totalReports : Nat := 0
  totalState : ℚ := 0
  completedTasks : Nat := 0
  incompleteTasks : Nat := 0
  deriving DecidableEq, Repr

/-- One iteration of the `reportRows.forEach` loop of `fromReports`:
short rows and rows of other users are skipped; otherwise the report is
counted, the score added, and each task array that parses as an array
contributes its length (a parse throw skips the rest of the row's task
counting). -/
def statsStep (userId : Cell) (acc : StatsAcc) (row : List Cell) :
    StatsAcc :=
  if row.length < 9 then acc
  else if row.getD 2 (.str "") != userId then acc
  else
    let state := cellScore (row.getD 4 (.str ""))
    let acc1 : StatsAcc :=
      { acc with
          totalReports := acc.totalReports + 1
          totalState := acc.totalState + state }
    match jsonParseCell (row.getD 5 (.str "")) with
    | none => acc1
    | some p5 =>
      let acc2 : StatsAcc :=
        match p5 with
        | .arr l => { acc1 with completedTasks := acc1.completedTasks + l.length }
        | .nonArr => acc1
      match jsonParseCell (row.getD 6 (.str "")) with
      | none => acc2
      | some (.arr l) =>
        { acc2 with incompleteTasks := acc2.incompleteTasks + l.length }
      | some .nonArr => acc2

/-- `UserStats.fromReports(reportRows, userId)`: scan, aggregate, then
derive the rounded average score and the completion rate. -/
def UserStats.fromReports (rows : List (List Cell)) (userId : Cell) :
    UserStats :=
  if rows.isEmpty then UserStats.makeJS 0 0 0 0 0
  else
    let acc := rows.foldl (statsStep userId) {}
    let averageState : ℚ :=
      if acc.totalReports > 0 then
        ((roundJS (acc.totalState / (acc.totalReports : ℚ) * 10) : ℤ) : ℚ) / 10
      else 0
    let totalTasks := acc.completedTasks + acc.incompleteTasks
    let completionRate : ℤ :=
      if totalTasks > 0 then
        roundJS ((acc.completedTasks : ℚ) / (totalTasks : ℚ) * 100)
      else 0
    UserStats.makeJS acc.totalReports averageState acc.completedTasks
      acc.incompleteTasks completionRate

/-! ### Claim C8 — on-demand stats aggregation -/

/-- The constructor's recompute path agrees with the rate passed by
`fromReports` whenever tasks exist. -/
theorem makeJS_rate (tr : Nat) (aS : ℚ) (c i : Nat) (hpos : 0 < c + i) :
    (UserStats.makeJS tr aS c i
        (roundJS ((c : ℚ) / ((c : ℚ) + (i : ℚ)) * 100))).completionRate =
      roundJS ((c : ℚ) / ((c : ℚ) + (i : ℚ)) * 100) := by
  unfold UserStats.makeJS
  dsimp only
  by_cases hz : ((decide (c > 0) || decide (i > 0)) &&
      (roundJS ((c : ℚ) / ((c : ℚ) + (i : ℚ)) * 100) == 0)) = true
  · rw [if_pos hz, if_pos (by omega : c + i > 0)]
  · rw [if_neg hz]

/-- First record of the claim's scenario: score 4, 2 completed and 1
incomplete task, in the 9-column layout written by `toSheetRow` (task
lists as JSON text). -/
def statsRow1 : List Cell :=
  [.num 1, .str "2024-01-01", .num 42, .str "user", .num 4,
   .str "[\"a\",\"b\"]", .str "[\"c\"]", .str "[]", .str ""]

/-- Second record: score 6, 1 completed and 1 incomplete task. -/
def statsRow2 : List Cell :=
  [.num 2, .str "2024-01-08", .num 42, .str "user", .num 6,
   .str "[\"d\"]", .str "[\"e\"]", .str "[]", .str ""]

/-- Third record: score 8, 3 completed and 0 incomplete tasks. -/
def statsRow3 : List Cell :=
  [.num 3, .str "2024-01-15", .num 42, .str "user", .num 8,
   .str "[\"f\",\"g\",\"h\"]", .str "[]", .str "[]", .str ""]

/-- The three persisted records of the claim's scenario, for user 42. -/
def statsRows : List (List Cell) := [statsRow1, statsRow2, statsRow3]

theorem statsStep_row1 (acc : StatsAcc) :
    statsStep (.num 42) acc statsRow1 =
      { acc with
          totalReports := acc.totalReports + 1
          totalState := acc.totalState + 4
          completedTasks := acc.completedTasks + 2
          incompleteTasks := acc.incompleteTasks + 1 } := rfl

theorem statsStep_row2 (acc : StatsAcc) :
    statsStep (.num 42) acc statsRow2 =
      { acc with
          totalReports := acc.totalReports + 1
          totalState := acc.totalState + 6
          completedTasks := acc.completedTasks + 1
          incompleteTasks := acc.incompleteTasks + 1 } := rfl

theorem statsStep_row3 (acc : StatsAcc) :
    statsStep (.num 42) acc statsRow3 =
      { acc with
          totalReports := acc.totalReports + 1
          totalState := acc.totalState + 8
          completedTasks := acc.completedTasks + 3
          incompleteTasks := acc.incompleteTasks + 0 } := rfl

/-- The scan of the scenario rows accumulates 3 reports, total score 18,
6 completed and 2 incomplete tasks. -/
theorem stats_acc_concrete :
    statsRows.foldl (statsStep (.num 42)) {} =
      { totalReports := 3, totalState := 18, completedTasks := 6,
        incompleteTasks := 2 } := by
  show statsRows.foldl (statsStep (.num 42))
      { totalReports := 0, totalState := 0, completedTasks := 0,
        incompleteTasks := 0 } = _
  unfold statsRows
  simp only [List.foldl_cons, List.foldl_nil, statsStep_row1, statsStep_row2,
    statsStep_row3]
  simp only [StatsAcc.mk.injEq]
  norm_num

/-- C8: `UserStats.fromReports` aggregates a user's scanned report
records on demand: for the three records with scores 4, 6, 8 and task
counts (2,1), (1,1), (3,0) it returns `totalReports = 3`,
`averageState = 6.0` and `completedTasks = 6` (with
`incompleteTasks = 2` and `completionRate = 75`); and on every input
with at least one counted task the completion rate equals
`round(completed / (completed + incomplete) * 100)`. -/
theorem stats_aggregation_property :
    UserStats.fromReports statsRows (.num 42) =
      { totalReports := 3, averageState := 6, completedTasks := 6,
        incompleteTasks := 2, completionRate := 75 } ∧
    ∀ (rows : List (List Cell)) (uid : Cell),
      0 < (UserStats.fromReports rows uid).completedTasks +
        (UserStats.fromReports rows uid).incompleteTasks →
      (UserStats.fromReports rows uid).completionRate =
        roundJS (((UserStats.fromReports rows uid).completedTasks : ℚ) /
          (((UserStats.fromReports rows uid).completedTasks : ℚ) +
            ((UserStats.fromReports rows uid).incompleteTasks : ℚ)) * 100) := by
  constructor
  · unfold UserStats.fromReports
    rw [if_neg (by decide)]
    dsimp only
    rw [stats_acc_concrete]
    dsimp only
    rw [if_pos (by norm_num), if_pos (by norm_num)]
    have h1 : roundJS ((18 : ℚ) / ((3 : Nat) : ℚ) * 10) = 60 := by
      have he : ((18 : ℚ) / ((3 : Nat) : ℚ) * 10) = 60 := by norm_num
      rw [he]
      unfold roundJS
      rw [Int.floor_eq_iff] <;> norm_num
    have h2 : roundJS (((6 : Nat) : ℚ) / (((6 + 2 : Nat) : ℕ) : ℚ) * 100) =
        75 := by
      have he : (((6 : Nat) : ℚ) / (((6 + 2 : Nat) : ℕ) : ℚ) * 100) = 75 := by
        norm_num
      rw [he]
      unfold roundJS
      rw [Int.floor_eq_iff] <;> norm_num
    rw [h1, h2]
    unfold UserStats.makeJS
    dsimp only
    rw [if_neg (by decide)]
    simp only [UserStats.mk.injEq]
    norm_num
  · intro rows uid hpos
    have hcpr : ∀ (tr : Nat) (aS : ℚ) (c i : Nat) (r : ℤ),
        (UserStats.makeJS tr aS c i r).completedTasks = c :=
      fun _ _ _ _ _ => rfl
    have hipr : ∀ (tr : Nat) (aS : ℚ) (c i : Nat) (r : ℤ),
        (UserStats.makeJS tr aS c i r).incompleteTasks = i :=
      fun _ _ _ _ _ => rfl
    unfold UserStats.fromReports at hpos ⊢
    by_cases hemp : rows.isEmpty = true
    · rw [if_pos hemp] at hpos
      exact absurd hpos (by decide)
    · rw [if_neg hemp] at hpos ⊢
      dsimp only at hpos ⊢
      revert hpos
      generalize rows.foldl (statsStep uid)
        { totalReports := 0, totalState := 0, completedTasks := 0,
          incompleteTasks := 0 } = acc
      intro hpos
      rw [hcpr, hipr] at hpos
      rw [hcpr, hipr]
      rw [if_pos (by omega : acc.completedTasks + acc.incompleteTasks > 0)]
      have hcast : ((acc.completedTasks + acc.incompleteTasks : ℕ) : ℚ) =
          (acc.completedTasks : ℚ) + (acc.incompleteTasks : ℚ) := by
        push_cast
        ring
      rw [hcast]
      exact makeJS_rate _ _ _ _ (by omega)

/-- C8 witness: the general completion-rate clause of
`stats_aggregation_property` applied at the concrete scenario rows. -/
theorem stats_aggregation_property_witness :
    (UserStats.fromReports statsRows (.num 42)).completionRate =
      roundJS (((UserStats.fromReports statsRows (.num 42)).completedTasks : ℚ) /
        (((UserStats.fromReports statsRows (.num 42)).completedTasks : ℚ) +
          ((UserStats.fromReports statsRows (.num 42)).incompleteTasks : ℚ)) *
        100) :=
  stats_aggregation_property.2 statsRows (.num 42) (by decide)

/-! ## Dialogue engine (controllers/telegram/stateMachine.js)

The engine is modelled generically over the state-owned context data
`D`: a registered state is its name, `canHandleCommand`, and the
`handleMessage`/`enter`/`exit` hooks as context transformers. The
engine's observable behaviour per dispatch is captured by an event
trace: which states' `handleMessage` ran (in order) and which
transitions were performed. A thrown JS error (unregistered state name)
is `none` for the whole dispatch — the engine's `try/catch` turns it
into an error notice to the user. -/

/-- A JS state-handler return value as the engine inspects it:
`undefined` ("not handled"), `null` ("no transition"), or a state
name. -/
inductive JsRet
  | undef
  | null
  | name (s : String)
  deriving DecidableEq, Repr

/-- A generic session context: `context.state` plus state-owned data. -/
structure GCtx (D : Type) where
  state : Option String := none
  data : D
  deriving DecidableEq, Repr

/-- A registered state as the engine consumes it. -/
structure GState (D : Type) where
  name : String
  canHandleCommand : String → Bool
  handleMessage : GCtx D → Message → GCtx D × JsRet
  enter : GCtx D → GCtx D
  exit : GCtx D → GCtx D

/-- Observable engine events of one dispatch. -/
inductive Event
  | dispatched (state : String)
  | transitioned (src dst : String)
  deriving DecidableEq, Repr

/-- The `handleMessage` dispatches of a trace, in order. -/
def dispatches (evs : List Event) : List String :=
  evs.filterMap (fun e =>
    match e with
    | .dispatched s => some s
    | _ => none)

/-- The state machine: the registered states (insertion order, as
`Object.entries(this.states)` iterates them) and
`this.initialState = config.states.NONE`. -/
structure StateMachine (D : Type) where
  states : List (GState D)
  initialState : String

namespace StateMachine

variable {D : Type}

/-- `this.states[stateName]` (unique names assumed, as `registerState`
keys the object by name). -/
def findState (m : StateMachine D) (name : String) : Option (GState D) :=
  m.states.find? (fun s => s.name == name)

/-- `context.state || this.initialState` (an unset or empty state name
falls back to the initial state). -/
def currentName (m : StateMachine D) (ctx : GCtx D) : String :=
  match ctx.state with
  | some s => if s = "" then m.initialState else s
  | none => m.initialState

/-- `StateMachine.transition(context, newStateName)`: `none` when the
new state is unregistered (JS throws); otherwise `exit` the old state
(when registered and different), set `context.state`, and `enter` the
new state. -/
def transition (m : StateMachine D) (ctx : GCtx D) (newStateName : String) :
    Option (GCtx D) :=
  match m.findState newStateName with
  | none => none
  | some newState =>
    let currentStateName := m.currentName ctx
    let ctx1 :=
      if currentStateName ≠ newStateName then
        match m.findState currentStateName with
        | some cur => cur.exit ctx
        | none => ctx
      else ctx
    some (newState.enter { ctx1 with state := some newStateName })

/-- `message.text && message.text.startsWith('/')`. -/
def isCommandMsg (msg : Message) : Bool :=
  match msg.text with
  | none => false
  | some t => jsStartsWith t "/"

/-- `message.text.split(' ')[0].toLowerCase()`. -/
def commandOf (text : String) : String :=
  jsToLower ((jsSplit text (Char.ofNat 32)).headD "")

/-- The tail of `StateMachine.handleMessage`: `if (nextStateName &&
nextStateName !== currentStateName) await this.transition(...)` — a
truthy returned name different from the (original) current state name
triggers the final transition. -/
def applyReturn (m : StateMachine D) (currentStateName : String)
    (ctx : GCtx D) (r : JsRet) (evs : List Event) :
    Option (GCtx D × List Event) :=
  match r with
  | .name s =>
    if s ≠ "" ∧ s ≠ currentStateName then
      match m.transition ctx s with
      | none => none
      | some ctx2 =>
        some (ctx2, evs ++ [.transitioned (m.currentName ctx) s])
    else some (ctx, evs)
  | _ => some (ctx, evs)

/-- The back half of `StateMachine.handleMessage` for a command
message, given the result `(ctx2, r2)` reached so far and the events
`ev2`: if the command is still unhandled (`undefined`) and the session
is not in the initial state, force a transition to the initial state
and re-dispatch the message there; then apply the final returned
transition request. -/
def finishCommand (m : StateMachine D) (currentStateName : String)
    (msg : Message) (ctx2 : GCtx D) (r2 : JsRet) (ev2 : List Event) :
    Option (GCtx D × List Event) :=
  if r2 = .undef ∧ currentStateName ≠ m.initialState then
    match m.transition ctx2 m.initialState with
    | none => none
    | some ctx3 =>
      match m.findState m.initialState with
      | none => none
      | some ini =>
        let step3 := ini.handleMessage ctx3 msg
        applyReturn m currentStateName step3.1 step3.2
          (ev2 ++ [.transitioned (m.currentName ctx2) m.initialState,
                   .dispatched m.initialState])
  else applyReturn m currentStateName ctx2 r2 ev2

/-- `StateMachine.handleMessage(context, message)`: a command-prefixed
text gives the current state first refusal; only an `undefined` return
triggers the search over the other registered states for one whose
`canHandleCommand` accepts the command (transition into it, dispatch
there); the rest is `finishCommand`. Plain text goes straight to the
current state. -/
def handleMessage (m : StateMachine D) (ctx0 : GCtx D) (msg : Message) :
    Option (GCtx D × List Event) :=
  let currentStateName := m.currentName ctx0
  match m.findState currentStateName with
  | none => none
  | some currentState =>
    if isCommandMsg msg then
      let command := commandOf (msg.text.getD "")
      let step1 := currentState.handleMessage ctx0 msg
      match step1.2 with
      | .undef =>
        match m.states.find? (fun s =>
            s.name ≠ currentStateName && s.canHandleCommand command) with
        | some st =>
          match m.transition step1.1 st.name with
          | none => none
          | some ctx2 =>
            let step2 := st.handleMessage ctx2 msg
            finishCommand m currentStateName msg step2.1 step2.2
              [.dispatched currentStateName,
               .transitioned (m.currentName step1.1) st.name,
               .dispatched st.name]
        | none =>
          finishCommand m currentStateName msg step1.1 .undef
            [.dispatched currentStateName]
      | r =>
        finishCommand m currentStateName msg step1.1 r
          [.dispatched currentStateName]
    else
      let step1 := currentState.handleMessage ctx0 msg
      applyReturn m currentStateName step1.1 step1.2
        [.dispatched currentStateName]

end StateMachine

section EngineLemmas

variable {D : Type}

/-- The final-transition step adds no dispatch events: it preserves the
dispatch list, keeps every event, and keeps the head of a nonempty
trace. -/
theorem applyReturn_spec (m : StateMachine D) (n : String) (ctx : GCtx D)
    (r : JsRet) (evs0 : List Event) (ctxF : GCtx D) (evs : List Event)
    (h : StateMachine.applyReturn m n ctx r evs0 = some (ctxF, evs)) :
    dispatches evs = dispatches evs0 ∧
    (∀ e, e ∈ evs0 → e ∈ evs) ∧
    (evs0 ≠ [] → evs.head? = evs0.head?) := by
  unfold StateMachine.applyReturn at h
  repeat' split at h
  all_goals first
    | exact Option.noConfusion h
    | (simp only [Option.some.injEq, Prod.mk.injEq] at h
       obtain ⟨h1, h2⟩ := h
       subst h2
       refine ⟨?_, ?_, ?_⟩
       · simp [dispatches, List.filterMap_append]
       · intro e he
         simp [he]
       · intro hne
         cases evs0 with
         | nil => exact absurd rfl hne
         | cons a t => simp)

/-- Behaviour of the fallback-and-finish step: events are preserved, a
nonempty trace keeps its head, at most one extra dispatch (to the
initial state) is appended, a handled command appends none, and an
unhandled command away from the initial state appends exactly the
forced dispatch to — and a transition into — the initial state. -/
theorem finishCommand_spec (m : StateMachine D) (n : String)
    (msg : Message) (ctx2 : GCtx D) (r2 : JsRet) (ev2 : List Event)
    (ctxF : GCtx D) (evs : List Event)
    (h : StateMachine.finishCommand m n msg ctx2 r2 ev2 = some (ctxF, evs)) :
    (∀ e, e ∈ ev2 → e ∈ evs) ∧
    (ev2 ≠ [] → evs.head? = ev2.head?) ∧
    (dispatches evs = dispatches ev2 ∨
      dispatches evs = dispatches ev2 ++ [m.initialState]) ∧
    (r2 ≠ .undef → dispatches evs = dispatches ev2) ∧
    (r2 = .undef → n ≠ m.initialState →
      dispatches evs = dispatches ev2 ++ [m.initialState] ∧
      ∃ a, Event.transitioned a m.initialState ∈ evs) := by
  unfold StateMachine.finishCommand at h
  split at h
  · rename_i hcond
    repeat' split at h
    all_goals first
      | exact Option.noConfusion h
      | (obtain ⟨hd, hm, hh⟩ := applyReturn_spec _ _ _ _ _ _ _ h
         refine ⟨?_, ?_, ?_, ?_, ?_⟩
         · intro e he
           exact hm e (by simp [he])
         · intro hne
           rw [hh (by simp)]
           cases ev2 with
           | nil => exact absurd rfl hne
           | cons a t => simp
         · right
           rw [hd]
           simp [dispatches, List.filterMap_append]
         · intro hr
           exact absurd hcond.1 hr
         · intro _ _
           constructor
           · rw [hd]
             simp [dispatches, List.filterMap_append]
           · exact ⟨m.currentName ctx2, hm _ (by simp)⟩)
  · rename_i hcond
    obtain ⟨hd, hm, hh⟩ := applyReturn_spec _ _ _ _ _ _ _ h
    refine ⟨hm, hh, Or.inl hd, fun _ => hd, ?_⟩
    intro h1 h2
    exact absurd ⟨h1, h2⟩ hcond

/-- C1: dispatch of a command-prefixed text message. (a) The current
state's `handleMessage` always runs first. (b) When it returns anything
other than "not handled" (`undefined`) — including "no transition"
(`null`) — no other state's handler runs. (c) When it returns "not
handled" and another registered state's `canHandleCommand` accepts the
command, the engine transitions into the first such state and
dispatches the message there. (d) When no state claims the command and
the session is not in the initial state `None`, the engine forces a
transition to the initial state and re-dispatches the message there. -/
theorem dispatch_algorithm_property (m : StateMachine D)
    (ctx : GCtx D) (msg : Message) (cur : GState D)
    (hcmd : StateMachine.isCommandMsg msg = true)
    (hcur : m.findState (m.currentName ctx) = some cur) :
    (∀ ctxF evs, m.handleMessage ctx msg = some (ctxF, evs) →
      evs.head? = some (.dispatched (m.currentName ctx))) ∧
    ((cur.handleMessage ctx msg).2 ≠ .undef →
      ∀ ctxF evs, m.handleMessage ctx msg = some (ctxF, evs) →
        dispatches evs = [m.currentName ctx]) ∧
    (∀ st : GState D, (cur.handleMessage ctx msg).2 = .undef →
      m.states.find? (fun s => s.name ≠ m.currentName ctx &&
        s.canHandleCommand (StateMachine.commandOf (msg.text.getD ""))) =
          some st →
      ∀ ctxF evs, m.handleMessage ctx msg = some (ctxF, evs) →
        (dispatches evs).take 2 = [m.currentName ctx, st.name] ∧
        ∃ a, Event.transitioned a st.name ∈ evs) ∧
    ((cur.handleMessage ctx msg).2 = .undef →
      m.states.find? (fun s => s.name ≠ m.currentName ctx &&
        s.canHandleCommand (StateMachine.commandOf (msg.text.getD ""))) =
          none →
      m.currentName ctx ≠ m.initialState →
      ∀ ctxF evs, m.handleMessage ctx msg = some (ctxF, evs) →
        dispatches evs = [m.currentName ctx, m.initialState] ∧
        ∃ a, Event.transitioned a m.initialState ∈ evs) := by
  refine ⟨?_, ?_, ?_, ?_⟩
  · intro ctxF evs hrun
    unfold StateMachine.handleMessage at hrun
    dsimp only at hrun
    rw [hcur] at hrun
    dsimp only at hrun
    rw [if_pos hcmd] at hrun
    repeat' split at hrun
    all_goals first
      | exact Option.noConfusion hrun
      | (obtain ⟨hm1, hh, _, _, _⟩ := finishCommand_spec _ _ _ _ _ _ _ _ hrun
         rw [hh (by simp)]
         simp)
  · intro hr1 ctxF evs hrun
    unfold StateMachine.handleMessage at hrun
    dsimp only at hrun
    rw [hcur] at hrun
    dsimp only at hrun
    rw [if_pos hcmd] at hrun
    cases hr : (cur.handleMessage ctx msg).2 with
    | undef => exact absurd hr hr1
    | null =>
      rw [hr] at hrun
      dsimp only at hrun
      obtain ⟨_, _, _, h4, _⟩ := finishCommand_spec _ _ _ _ _ _ _ _ hrun
      rw [h4 (by simp)]
      simp [dispatches]
    | name s =>
      rw [hr] at hrun
      dsimp only at hrun
      obtain ⟨_, _, _, h4, _⟩ := finishCommand_spec _ _ _ _ _ _ _ _ hrun
      rw [h4 (by simp)]
      simp [dispatches]
  · intro st hundef hst ctxF evs hrun
    unfold StateMachine.handleMessage at hrun
    dsimp only at hrun
    rw [hcur] at hrun
    dsimp only at hrun
    rw [if_pos hcmd, hundef] at hrun
    dsimp only at hrun
    rw [hst] at hrun
    dsimp only at hrun
    repeat' split at hrun
    all_goals first
      | exact Option.noConfusion hrun
      | (obtain ⟨hm1, hh, h3, _, _⟩ := finishCommand_spec _ _ _ _ _ _ _ _ hrun
         refine ⟨?_, m.currentName (cur.handleMessage ctx msg).1,
           hm1 _ (by simp)⟩
         rcases h3 with h3 | h3 <;> (rw [h3]; simp [dispatches]))
  · intro hundef hnone hne ctxF evs hrun
    unfold StateMachine.handleMessage at hrun
    dsimp only at hrun
    rw [hcur] at hrun
    dsimp only at hrun
    rw [if_pos hcmd, hundef] at hrun
    dsimp only at hrun
    rw [hnone] at hrun
    dsimp only at hrun
    obtain ⟨hm1, hh, h3, h4, h5⟩ := finishCommand_spec _ _ _ _ _ _ _ _ hrun
    obtain ⟨hd5, he5⟩ := h5 rfl hne
    refine ⟨?_, he5⟩
    rw [hd5]
    simp [dispatches]

end EngineLemmas

/-- A concrete idle state for the witness machine: it claims the global
`/start` command and always answers `null` (handled, no transition). -/
def stateIdle : GState Unit where
  name := "none"
  canHandleCommand := fun c => c == "/start"
  handleMessage := fun ctx _ => (ctx, .null)
  enter := id
  exit := id

/-- A concrete in-flow state for the witness machine: it claims only its
own `/report` command and declines (`undefined`) everything else. -/
def stateReport : GState Unit where
  name := "report"
  canHandleCommand := fun c => c == "/report"
  handleMessage := fun ctx msg =>
    if msg.text == some "/done" then (ctx, .null) else (ctx, .undef)
  enter := id
  exit := id

/-- The witness machine: two registered states, initial state `none`. -/
def engine2 : StateMachine Unit where
  states := [stateIdle, stateReport]
  initialState := "none"

/-- A session currently in the `report` state. -/
def ctxReport : GCtx Unit := { state := some "report", data := () }

/-- C1 witness: in `engine2` a session sitting in `report` receives
`/start`; `report` declines it, so the engine transitions into the
claiming state `none` and re-dispatches there, which part (c) of the
dispatch theorem reads off the concrete event trace. -/
theorem dispatch_algorithm_property_witness :
    (dispatches [Event.dispatched "report", Event.transitioned "report" "none",
        Event.dispatched "none"]).take 2 = ["report", "none"] ∧
    ∃ a, Event.transitioned a "none" ∈
      [Event.dispatched "report", Event.transitioned "report" "none",
       Event.dispatched "none"] := by
  have h := dispatch_algorithm_property engine2 ctxReport
    { text := some "/start" } stateReport rfl rfl
  exact h.2.2.1 stateIdle rfl rfl
    { state := some "none", data := () }
    [Event.dispatched "report", Event.transitioned "report" "none",
     Event.dispatched "none"] rfl


end Challange10k
